import Mathlib

/-!
Verification of the osu-trainer beatmap pipeline (src/main.py).

The source is a Python program with three pure-ish components:
 - convert_file_to_dict : parses an .osu text file into a dict keyed by
   bracketed section headers;
 - speedup_osu_file : rescales the time axis of the parsed document by a
   rate factor, adjusting difficulty parameters;
 - convert_dict_to_file : serializes the dict back to text.

Shallow embedding conventions:
 - Python runtime values stored in the dict are modelled by `V`
   (string / int / float); Python floats are idealized as rationals.
 - Python exceptions (KeyError, IndexError, ValueError, AttributeError,
   ZeroDivisionError, TypeError) are modelled by `Option`: a crash is
   `none`.  The source has no typed error values anywhere.
 - Python `dict` is modelled as an association list with insertion-order
   preserving update semantics (`kvset` / `dset`).
 - Python `round` is round-half-to-even on the ideal rational value
   (`pyRound`, `pyRound1`).
 - `f"{x}"` / `str(x)` is modelled by `pyStr`; numeric formatting by
   `pyNumStr`, which renders integral rationals the way Python renders
   ints and finite decimal fractions the way Python renders the
   corresponding floats (the rates actually passed, e.g. 1.3 or 2).
 - Reading the lines of a file is modelled by `pyLines`, splitting the
   file content at every newline character, matching Python text-file
   iteration.
-/

attribute [local semireducible] Rat.mul Rat.add Rat.sub Rat.inv Rat.ofScientific

/-- Python str.strip(): drop leading and trailing whitespace.  Defined
by structural recursion over the character list so that concrete
witnesses evaluate inside the kernel. -/
def pyStrip (str : String) : String :=
String.mk (((str.data.dropWhile Char.isWhitespace).reverse.dropWhile Char.isWhitespace).reverse)

/-- Whether the first list is a prefix of the second. -/
def isPre : List Char → List Char → Bool
| [], _ => true
| _ :: _, [] => false
| p :: ps, c :: cs => c = p && isPre ps cs

/-- Fuelled worker for Python str.split(sep): scan left to right, cut at
every non-overlapping occurrence of sep.  The fuel starts at the input
length and drops by at least one per step, so it never runs out. -/
def pySplitGo (sep : List Char) : Nat → List Char → List (List Char)
| _, [] => [[]]
| 0, cs => [cs]
| fuel + 1, c :: cs =>
  if isPre sep (c :: cs) then
    [] :: pySplitGo sep fuel ((c :: cs).drop sep.length)
  else
    match pySplitGo sep fuel cs with
    | [] => [[c]]
    | l :: ls => (c :: l) :: ls

/-- Python str.split(sep) for a nonempty separator. -/
def pySplitStr (str sep : String) : List String :=
(pySplitGo sep.data str.data.length str.data).map String.mk

/-- Python line.startswith(prefix), via the character lists. -/
def pyStarts (str pre : String) : Bool :=
isPre pre.data str.data

/-- Python sep.join(items). -/
def joinSep (sep : String) : List String → String
| [] => ""
| [l] => l
| l :: ls => l ++ sep ++ joinSep sep ls

/-- Python runtime value stored in the document dictionary: a string
(everything the parser produces), an int, or a float (idealized as ℚ). -/
inductive V : Type
| s (v : String)
| i (v : ℤ)
| q (v : ℚ)
deriving DecidableEq, Repr

/-- A section of the document: either a key-value mapping (modelling a
Python dict, insertion-ordered) or a list of comma-split records. -/
inductive Sect : Type
| kv (pairs : List (String × V))
| recs (rows : List (List V))
deriving DecidableEq, Repr

/-- The whole document: a Python dict from bracketed header strings to
sections, modelled as an insertion-ordered association list. -/
abbrev OsuDict : Type := List (String × Sect)

/-- Python dict lookup (d[k]) on the outer dict; missing key = KeyError. -/
def dget : OsuDict → String → Option Sect
| [], _ => none
| (k1, s1) :: rest, k => if k1 = k then some s1 else dget rest k

/-- Python dict assignment d[k] = v on the outer dict: updating an
existing key keeps its position, a new key is appended. -/
def dset : OsuDict → String → Sect → OsuDict
| [], k, v => [(k, v)]
| (k1, s1) :: rest, k, v => if k1 = k then (k1, v) :: rest else (k1, s1) :: dset rest k v

/-- Python dict lookup inside a key-value section. -/
def kvget : List (String × V) → String → Option V
| [], _ => none
| (k1, v1) :: rest, k => if k1 = k then some v1 else kvget rest k

/-- Python dict assignment inside a key-value section. -/
def kvset : List (String × V) → String → V → List (String × V)
| [], k, v => [(k, v)]
| (k1, v1) :: rest, k, v => if k1 = k then (k1, v) :: rest else (k1, v1) :: kvset rest k v

/-- Section lookup that must produce a key-value section: indexing a
Python list with a string key raises TypeError, modelled none. -/
def dgetKV (d : OsuDict) (k : String) : Option (List (String × V)) :=
match dget d k with
| some (Sect.kv m) => some m
| _ => none

/-- Section lookup that must produce a record-list section: the record
loops call list-only operations, so a dict value crashes (none). -/
def dgetRecs (d : OsuDict) (k : String) : Option (List (List V)) :=
match dget d k with
| some (Sect.recs rows) => some rows
| _ => none

/-- Python list item assignment l[i] = x: IndexError when out of range. -/
def lset (l : List V) (i : Nat) (x : V) : Option (List V) :=
if i < l.length then some (l.set i x) else none

/-- Accumulate a decimal digit string; none when a non-digit appears.
An empty list yields some 0 (callers reject emptiness separately). -/
def digitsAcc (cs : List Char) : Option Nat :=
cs.foldlM (fun acc c => if c.isDigit then some (acc * 10 + (c.toNat - 48)) else none) 0

/-- Digits of a nonempty all-digit string; models the body of int(). -/
def digitsVal (cs : List Char) : Option Nat :=
if cs.isEmpty then none else digitsAcc cs

/-- Python int(string): strips whitespace, optional sign, then decimal
digits only; anything else (e.g. "9.9") raises ValueError = none. -/
def pyIntStr (str : String) : Option ℤ :=
match (pyStrip str).data with
| '-' :: rest => (digitsVal rest).map (fun n => -(n : ℤ))
| '+' :: rest => (digitsVal rest).map (fun n => (n : ℤ))
| cs => (digitsVal cs).map (fun n => (n : ℤ))

/-- Python float(string) restricted to the plain decimal forms the data
uses: optional sign, digits, optional point, digits ("5", "5.", ".5",
"5.25"); no exponent or inf/nan forms are modelled. -/
def pyFloatBody (cs : List Char) : Option ℚ :=
match cs.splitOn '.' with
| [ip] => (digitsVal ip).map (fun n => (n : ℚ))
| [ip, fp] =>
  if ip.isEmpty ∧ fp.isEmpty then none
  else
    (digitsAcc ip).bind (fun a =>
      (digitsAcc fp).map (fun b => (a : ℚ) + (b : ℚ) / (10 : ℚ) ^ fp.length))
| _ => none

/-- Python float(string) with sign and whitespace stripping. -/
def pyFloatStr (str : String) : Option ℚ :=
match (pyStrip str).data with
| '-' :: rest => (pyFloatBody rest).map (fun x => -x)
| '+' :: rest => pyFloatBody rest
| cs => pyFloatBody cs

/-- Python int(value) on a stored value: parses strings, keeps ints,
truncates floats toward zero. -/
def pyIntV : V → Option ℤ
| V.s str => pyIntStr str
| V.i n => some n
| V.q x => some (if 0 ≤ x then ⌊x⌋ else -⌊-x⌋)

/-- Python float(value) on a stored value. -/
def pyFloatV : V → Option ℚ
| V.s str => pyFloatStr str
| V.i n => some ((n : ℚ))
| V.q x => some x

/-- Python == between stored values: strings compare to strings, numbers
compare numerically across int/float, and a string never equals a
number (so "2" == 2 is False, as in the source's break-event test). -/
def pyEq : V → V → Bool
| V.s a, V.s b => a = b
| V.i a, V.i b => a = b
| V.q a, V.q b => a = b
| V.i a, V.q b => ((a : ℚ) = b : Bool)
| V.q a, V.i b => (a = (b : ℚ) : Bool)
| _, _ => false

/-- A value that must be a string: calling str methods (.split, .rfind)
on an int/float raises AttributeError, modelled none. -/
def asString : V → Option String
| V.s str => some str
| _ => none

/-- Python round(x) on the ideal value: round half to even. -/
def pyRound (x : ℚ) : ℤ :=
if Int.fract x < 1/2 then ⌊x⌋
else if 1/2 < Int.fract x then ⌊x⌋ + 1
else if ⌊x⌋ % 2 = 0 then ⌊x⌋ else ⌊x⌋ + 1

/-- Python round(x, 1): round to one decimal digit, half to even. -/
def pyRound1 (x : ℚ) : ℚ :=
(pyRound (x * 10) : ℚ) / 10

/-- Render a rational the way Python str() renders the number the model
stands for: integral values as ints (rates such as 2 are passed as
Python ints), finite decimals like 13/10 as "1.3"; other denominators
get a fallback fraction rendering (unreachable for the data modelled). -/
def pyNumStr (x : ℚ) : String :=
if x.den = 1 then toString x.num
else
  match (List.range 31).find? (fun k => (x * (10 : ℚ) ^ k).den = 1) with
  | some k =>
    let n := (x * (10 : ℚ) ^ k).num
    let sgn := if n < 0 then "-" else ""
    let a := n.natAbs
    let fpStr := toString (a % 10 ^ k)
    sgn ++ toString (a / 10 ^ k) ++ "." ++
      String.mk (List.replicate (k - fpStr.length) '0') ++ fpStr
  | none => toString x.num ++ "/" ++ toString x.den

/-- Python str(value) / f-string interpolation of a stored value. -/
def pyStr : V → String
| V.s str => str
| V.i n => toString n
| V.q x => pyNumStr x

/-! ## Document parser (convert_file_to_dict, src/main.py lines 9-70) -/

/-- Split a character stream at every newline, as Python text-file
iteration does (a trailing newline yields no extra line in Python, but
the extra empty line produced here is consumed harmlessly by the
parser's blank-line rule, and the serializer joins lines back with
single newlines, so the two views agree on round trips). -/
def splitLinesL : List Char → List (List Char)
| [] => [[]]
| c :: rest =>
  if c = '\n' then [] :: splitLinesL rest
  else
    match splitLinesL rest with
    | [] => [[c]]
    | l :: ls => (c :: l) :: ls

/-- The lines of a file's text content. -/
def pyLines (text : String) : List String :=
(splitLinesL text.data).map String.mk

/-- The key-value separator the source uses for each recognized
key-value header (the if/elif chain at lines 56-64); none for the
record-list / unknown headers falling to the final else branch. -/
def sepFor (hdr : String) : Option String :=
if hdr = "[General]" ∨ hdr = "[Editor]" then some ": "
else if hdr = "[Metadata]" ∨ hdr = "[Difficulty]" then some ":"
else if hdr = "[Colours]" then some " : "
else none

/-- Parser state: the is_in_section flag, the current header, and the
document built so far. -/
structure PState : Type where
  inSect : Bool
  hdr : String
  doc : OsuDict
deriving DecidableEq, Repr

/-- Insert one key-value data line: Python splits on the separator and
uses parts[0] / parts[1]; a line with no separator raises IndexError
(none), and extra parts beyond the second are dropped. -/
def kvInsertLine (st : PState) (sep line : String) : Option PState :=
match pySplitStr line sep with
| k :: v :: _ =>
  match dget st.doc st.hdr with
  | some (Sect.kv m) =>
    some { st with doc := dset st.doc st.hdr (Sect.kv (kvset m k (V.s v))) }
  | _ => none
| _ => none

/-- Process one line of the file (the loop body at lines 30-67):
strip, skip comments, blank lines leave the section, the first line
after a blank is a header (record-list sections for the three list
headers, a fresh dict for everything else, including unrecognized
headers), and other lines are data lines for the current header. -/
def procStripped (st : PState) (line : String) : Option PState :=
if pyStarts line "//" then some st
else if line = "" then some { st with inSect := false }
else if st.inSect = false then
  some ⟨true, line,
    dset st.doc line (if line = "[Events]" ∨ line = "[TimingPoints]" ∨ line = "[HitObjects]" then Sect.recs [] else Sect.kv [])⟩
else
  match sepFor st.hdr with
  | some sep => kvInsertLine st sep line
  | none =>
    match dget st.doc st.hdr with
    | some (Sect.recs rows) =>
      some { st with doc := dset st.doc st.hdr (Sect.recs (rows ++ [(pySplitStr line ",").map V.s])) }
    | _ => none

/-- The loop body applied to a raw file line: the source first rebinds
line = line.strip() and then dispatches on the stripped line. -/
def procLine (st : PState) (rawLine : String) : Option PState :=
procStripped st (pyStrip rawLine)

/-- convert_file_to_dict: drop the first line (the format-version
marker read by file.readline) and run the line loop. -/
def convert_file_to_dict (text : String) : Option OsuDict :=
(((pyLines text).drop 1).foldlM procLine ⟨false, "", []⟩).map PState.doc

/-! ## Rate transform (speedup_osu_file, src/main.py lines 73-247) -/

/-- Preempt duration derived from an approach rate (lines 93-98 and
identically lines 138-143). -/
def preemptOfAR (ar : ℤ) : ℚ :=
if ar < 5 then 1200 + 600 * ((5 : ℚ) - (ar : ℚ)) / 5
else if ar > 5 then 1200 - 750 * ((ar : ℚ) - 5) / 5
else 1200

/-- Approach rate recovered from a scaled preempt (lines 101-106 and
identically lines 149-154). -/
def arOfPreempt (p : ℚ) : ℚ :=
if p > 1200 then (p - 1800) / (-120)
else if p < 1200 then (p - 1950) / (-150)
else 5

/-- The new approach rate the transform computes for a given original
approach rate and rate factor (the simulation at lines 92-106 and the
real computation at lines 135-154 are this same formula). -/
def newAR (ar : ℤ) (r : ℚ) : ℚ :=
arOfPreempt (preemptOfAR ar / r)

/-- The new overall difficulty for a given original overall difficulty
and rate factor (lines 107-110 and lines 162-171). -/
def newOD (od : ℤ) (r : ℚ) : ℚ :=
(((80 - 6 * (od : ℚ)) / r) - 80) / (-6)

/-- The effective rate: the requested rate, divided once by 1.5 when
the simulated approach rate or overall difficulty at the requested
rate exceeds 10 (lines 112-113). -/
def effRate (ar od : ℤ) (rate : ℚ) : ℚ :=
if newAR ar rate > 10 ∨ newOD od rate > 10 then rate / (3/2) else rate

/-- Version tagging (line 81): Metadata.Version gets the suffix
" {rate}x" with the originally requested rate. -/
def setVersionTag (d : OsuDict) (rate : ℚ) : Option OsuDict :=
(dgetKV d "[Metadata]").bind (fun m =>
(kvget m "Version").map (fun v =>
dset d "[Metadata]" (Sect.kv (kvset m "Version" (V.s (pyStr v ++ " " ++ pyNumStr rate ++ "x"))))))

/-- The simulation pass (lines 91-113): parse ApproachRate with int()
(line 92), divide the preempt by the rate (line 99, ZeroDivisionError
when the rate is 0), parse OverallDifficulty (line 107), and return
the effective rate. -/
def computeEffRate (d : OsuDict) (rate : ℚ) : Option ℚ :=
(dgetKV d "[Difficulty]").bind (fun m =>
(kvget m "ApproachRate").bind (fun arv =>
(pyIntV arv).bind (fun (ar : ℤ) =>
if rate = 0 then none
else
  (kvget m "OverallDifficulty").bind (fun odv =>
  (pyIntV odv).map (fun (od : ℤ) =>
  effRate ar od rate)))))

/-- General timing scalars (lines 116-117): AudioLeadIn and
PreviewTime become round(int(value) / r). -/
def adjustGeneralTimes (d : OsuDict) (r : ℚ) : Option OsuDict :=
(dgetKV d "[General]").bind (fun g =>
(kvget g "AudioLeadIn").bind (fun av =>
(pyIntV av).bind (fun (a : ℤ) =>
let g1 := kvset g "AudioLeadIn" (V.i (pyRound ((a : ℚ) / r)))
(kvget g1 "PreviewTime").bind (fun pv =>
(pyIntV pv).map (fun (p : ℤ) =>
dset d "[General]" (Sect.kv (kvset g1 "PreviewTime" (V.i (pyRound ((p : ℚ) / r))))))))))

/-- Editor bookmarks (lines 121-128): when present, the comma-separated
integer list is rescaled elementwise and rejoined. -/
def adjustBookmarks (d : OsuDict) (r : ℚ) : Option OsuDict :=
(dgetKV d "[Editor]").bind (fun e =>
match kvget e "Bookmarks" with
| none => some d
| some bv =>
  (asString bv).bind (fun str =>
  ((pySplitStr str ",").mapM pyIntStr).map (fun ns =>
  dset d "[Editor]" (Sect.kv (kvset e "Bookmarks"
    (V.s (joinSep "," (ns.map (fun (n : ℤ) => toString (pyRound ((n : ℚ) / r)))))))))))

/-- Approach rate adjustment (lines 135-158): recompute the approach
rate at the effective rate and store min(round(AR1, 1), 10). -/
def adjustDifficultyAR (d : OsuDict) (r : ℚ) : Option OsuDict :=
(dgetKV d "[Difficulty]").bind (fun m =>
(kvget m "ApproachRate").bind (fun arv =>
(pyIntV arv).map (fun (ar : ℤ) =>
dset d "[Difficulty]" (Sect.kv (kvset m "ApproachRate" (V.q (min (pyRound1 (newAR ar r)) 10)))))))

/-- Overall difficulty adjustment (lines 162-175). -/
def adjustDifficultyOD (d : OsuDict) (r : ℚ) : Option OsuDict :=
(dgetKV d "[Difficulty]").bind (fun m =>
(kvget m "OverallDifficulty").bind (fun odv =>
(pyIntV odv).map (fun (od : ℤ) =>
dset d "[Difficulty]" (Sect.kv (kvset m "OverallDifficulty" (V.q (min (pyRound1 (newOD od r)) 10)))))))

/-- One Events record (loop body, lines 181-191): field 1 is rescaled;
when field 0 equals the int literal 2 or the string "Break" (Python ==,
so the string "2" matches neither), field 2 is rescaled too. -/
def adjustEvent (r : ℚ) (event : List V) : Option (List V) :=
(event.get? 1).bind (fun e1 =>
(pyIntV e1).bind (fun (n : ℤ) =>
(lset event 1 (V.i (pyRound ((n : ℚ) / r)))).bind (fun ne =>
(event.get? 0).bind (fun e0 =>
if pyEq e0 (V.i 2) ∨ pyEq e0 (V.s "Break") then
  (event.get? 2).bind (fun e2 =>
  (pyIntV e2).bind (fun (m : ℤ) =>
  lset ne 2 (V.i (pyRound ((m : ℚ) / r)))))
else some ne))))

/-- Events section (lines 178-193). -/
def adjustEvents (d : OsuDict) (r : ℚ) : Option OsuDict :=
(dgetRecs d "[Events]").bind (fun evs =>
(evs.mapM (adjustEvent r)).map (fun evs2 =>
dset d "[Events]" (Sect.recs evs2)))

/-- One TimingPoints record (loop body, lines 199-209): field 0 is
rescaled; field 6 is read unconditionally (IndexError on short
records), and when it equals the string "1" field 1 is divided by the
rate as a float. -/
def adjustTimingPoint (r : ℚ) (tp : List V) : Option (List V) :=
(tp.get? 0).bind (fun t0 =>
(pyIntV t0).bind (fun (n : ℤ) =>
(lset tp 0 (V.i (pyRound ((n : ℚ) / r)))).bind (fun ntp =>
(tp.get? 6).bind (fun t6 =>
if pyEq t6 (V.s "1") then
  (tp.get? 1).bind (fun t1 =>
  (pyFloatV t1).bind (fun (x : ℚ) =>
  lset ntp 1 (V.q (x / r))))
else some ntp))))

/-- TimingPoints section (lines 196-211). -/
def adjustTimingPoints (d : OsuDict) (r : ℚ) : Option OsuDict :=
(dgetRecs d "[TimingPoints]").bind (fun tps =>
(tps.mapM (adjustTimingPoint r)).map (fun tps2 =>
dset d "[TimingPoints]" (Sect.recs tps2)))

/-- One HitObjects record (loop body, lines 221-231): field 2 is
rescaled; when bit 0x08 of int(field 3) is set (spinner), field 5 is
rescaled too. -/
def adjustHitObject (r : ℚ) (ho : List V) : Option (List V) :=
(ho.get? 2).bind (fun h2 =>
(pyIntV h2).bind (fun (n : ℤ) =>
(lset ho 2 (V.i (pyRound ((n : ℚ) / r)))).bind (fun nho =>
(ho.get? 3).bind (fun h3 =>
(pyIntV h3).bind (fun (t : ℤ) =>
if Int.land t 8 ≠ 0 then
  (ho.get? 5).bind (fun h5 =>
  (pyIntV h5).bind (fun (m : ℤ) =>
  lset nho 5 (V.i (pyRound ((m : ℚ) / r)))))
else some nho)))))

/-- HitObjects section (lines 218-233). -/
def adjustHitObjects (d : OsuDict) (r : ℚ) : Option OsuDict :=
(dgetRecs d "[HitObjects]").bind (fun hos =>
(hos.mapM (adjustHitObject r)).map (fun hos2 =>
dset d "[HitObjects]" (Sect.recs hos2)))

/-- Python filename[:filename.rfind(".")]: everything before the last
dot; with no dot, rfind yields -1 and the slice drops the last
character. -/
def stripAfterLastDot (str : String) : String :=
if str.data.contains '.'
then String.mk (((str.data.reverse.dropWhile (fun c => !(c = '.'))).drop 1).reverse)
else String.mk str.data.dropLast

/-- Audio relinking (lines 243-245): AudioFilename becomes
"{origRate}-{base}.mp3" using the originally requested rate (the
external audio job itself, lines 244 and 314-332, is file/process I/O
and is not modelled). -/
def relinkAudio (d : OsuDict) (origRate : ℚ) : Option OsuDict :=
(dgetKV d "[General]").bind (fun g =>
(kvget g "AudioFilename").bind (fun fv =>
(asString fv).map (fun f =>
dset d "[General]" (Sect.kv (kvset g "AudioFilename"
  (V.s (pyNumStr origRate ++ "-" ++ stripAfterLastDot f ++ ".mp3")))))))

/-- All the rescaling stages after the effective rate is fixed (lines
116-245), in source order; r is the effective rate, origRate the
originally requested one (used only for the audio filename). -/
def speedupBody (d : OsuDict) (origRate r : ℚ) : Option OsuDict :=
(adjustGeneralTimes d r).bind (fun d1 =>
(adjustBookmarks d1 r).bind (fun d2 =>
(adjustDifficultyAR d2 r).bind (fun d3 =>
(adjustDifficultyOD d3 r).bind (fun d4 =>
(adjustEvents d4 r).bind (fun d5 =>
(adjustTimingPoints d5 r).bind (fun d6 =>
(adjustHitObjects d6 r).bind (fun d7 =>
relinkAudio d7 origRate)))))))

/-- speedup_osu_file (lines 73-247): tag the version with the requested
rate, compute the effective rate by simulation, then rescale
everything at the effective rate. -/
def speedup_osu_file (d : OsuDict) (rate : ℚ) : Option OsuDict :=
(setVersionTag d rate).bind (fun dv =>
(computeEffRate dv rate).bind (fun r =>
speedupBody dv rate r))

/-! ## Document serializer (convert_dict_to_file, src/main.py lines 250-311) -/

/-- One serialized key-value line: key, separator, str(value). -/
def kvLine (sep : String) (p : String × V) : String :=
p.1 ++ sep ++ pyStr p.2

/-- The serialized lines of a key-value section. -/
def kvLines (sep : String) (m : List (String × V)) : List String :=
m.map (kvLine sep)

/-- One serialized record line: fields joined with commas. -/
def recLine (row : List V) : String :=
joinSep "," (row.map pyStr)

/-- The serialized lines of the HitObjects section: the source writes a
newline after every record except the last (lines 302-309), and when
there are no records the header's own newline ends the file, which
shows up here as a trailing empty line. -/
def hoLines (rows : List (List V)) : List String :=
match rows with
| [] => ["[HitObjects]", ""]
| _ => "[HitObjects]" :: rows.map recLine

/-- The serialized file as its list of newline-separated lines, in the
fixed section order of the source, with one blank line after each
section and an extra one after TimingPoints (line 292 writes two
newlines). Missing or wrongly-shaped sections crash (none). -/
def serializeLines (d : OsuDict) : Option (List String) :=
(dgetKV d "[General]").bind (fun g =>
(dgetKV d "[Editor]").bind (fun e =>
(dgetKV d "[Metadata]").bind (fun m =>
(dgetKV d "[Difficulty]").bind (fun diff =>
(dgetRecs d "[Events]").bind (fun evs =>
(dgetRecs d "[TimingPoints]").bind (fun tps =>
(dgetKV d "[Colours]").bind (fun cols =>
(dgetRecs d "[HitObjects]").map (fun hos =>
["osu file format v14", ""]
  ++ ("[General]" :: kvLines ": " g) ++ [""]
  ++ ("[Editor]" :: kvLines ": " e) ++ [""]
  ++ ("[Metadata]" :: kvLines ":" m) ++ [""]
  ++ ("[Difficulty]" :: kvLines ":" diff) ++ [""]
  ++ ("[Events]" :: evs.map recLine) ++ [""]
  ++ ("[TimingPoints]" :: tps.map recLine) ++ ["", ""]
  ++ ("[Colours]" :: kvLines " : " cols) ++ [""]
  ++ hoLines hos))))))))

/-- Join lines with single newlines (no trailing newline: the last
HitObjects record is written without one). -/
def joinLines : List String → String
| [] => ""
| [l] => l
| l :: ls => l ++ "\n" ++ joinLines ls

/-- convert_dict_to_file as a text producer: the exact byte content the
source writes to the output file. -/
def convert_dict_to_file (d : OsuDict) : Option String :=
(serializeLines d).map joinLines

/-! ## Association-list and rounding lemmas -/

theorem dget_dset_self (d : OsuDict) (k : String) (v : Sect) :
    dget (dset d k v) k = some v := by
  induction d with
  | nil => simp [dget, dset]
  | cons p rest ih =>
    obtain ⟨k1, s1⟩ := p
    by_cases h : k1 = k <;> simp [dget, dset, h, ih]

theorem dget_dset_ne (d : OsuDict) (k k2 : String) (v : Sect) (h : k ≠ k2) :
    dget (dset d k v) k2 = dget d k2 := by
  induction d with
  | nil => simp [dget, dset, h]
  | cons p rest ih =>
    obtain ⟨k1, s1⟩ := p
    by_cases h1 : k1 = k
    · subst h1
      simp [dget, dset, h]
    · simp [dget, dset, h1, ih]

theorem kvget_kvset_self (m : List (String × V)) (k : String) (v : V) :
    kvget (kvset m k v) k = some v := by
  induction m with
  | nil => simp [kvget, kvset]
  | cons p rest ih =>
    obtain ⟨k1, v1⟩ := p
    by_cases h : k1 = k <;> simp [kvget, kvset, h, ih]

theorem kvget_kvset_ne (m : List (String × V)) (k k2 : String) (v : V) (h : k ≠ k2) :
    kvget (kvset m k v) k2 = kvget m k2 := by
  induction m with
  | nil => simp [kvget, kvset, h]
  | cons p rest ih =>
    obtain ⟨k1, v1⟩ := p
    by_cases h1 : k1 = k
    · subst h1
      simp [kvget, kvset, h]
    · simp [kvget, kvset, h1, ih]

theorem mapM_some_forall2 {α β : Type} (f : α → Option β) :
    ∀ {l : List α} {l2 : List β}, l.mapM f = some l2 →
    List.Forall₂ (fun a b => f a = some b) l l2 := by
  intro l
  induction l with
  | nil => intro l2 h; simp only [List.mapM_nil, pure, Option.some_inj] at h; subst h; exact List.Forall₂.nil
  | cons a rest ih =>
    intro l2 h
    rw [List.mapM_cons] at h
    simp only [bind, Option.bind_eq_some, pure, Option.some_inj] at h
    obtain ⟨b, hb, l3, hl3, rfl⟩ := h
    exact List.Forall₂.cons hb (ih hl3)

theorem pyRound_le_add_half (x : ℚ) : (pyRound x : ℚ) ≤ x + 1/2 := by
  have hfl : (⌊x⌋ : ℚ) ≤ x := Int.floor_le x
  have hfr : Int.fract x = x - ⌊x⌋ := (Int.self_sub_floor x).symm
  unfold pyRound
  split
  · linarith
  · rename_i h1
    push_neg at h1
    split
    · rename_i h2
      rw [hfr] at h2
      push_cast
      linarith
    · rename_i h2
      push_neg at h2
      have he : Int.fract x = 1/2 := le_antisymm h2 h1
      rw [hfr] at he
      split <;> push_cast <;> linarith

theorem sub_half_le_pyRound (x : ℚ) : x - 1/2 ≤ (pyRound x : ℚ) := by
  have hfl : (⌊x⌋ : ℚ) ≤ x := Int.floor_le x
  have hlt : x < (⌊x⌋ : ℚ) + 1 := Int.lt_floor_add_one x
  have hfr : Int.fract x = x - ⌊x⌋ := (Int.self_sub_floor x).symm
  unfold pyRound
  split
  · rename_i h1
    rw [hfr] at h1
    linarith
  · rename_i h1
    push_neg at h1
    split
    · push_cast
      linarith
    · rename_i h2
      push_neg at h2
      have he : Int.fract x = 1/2 := le_antisymm h2 h1
      rw [hfr] at he
      split <;> push_cast <;> linarith

theorem pyRound_intCast (n : ℤ) : pyRound ((n : ℚ)) = n := by
  unfold pyRound
  rw [Int.fract_intCast, Int.floor_intCast]
  norm_num

theorem pyRound_div_le (n : ℤ) (r : ℚ) (hn : 0 ≤ n) (hr : 1 ≤ r) :
    pyRound ((n : ℚ) / r) ≤ n := by
  have h1 : (n : ℚ) / r ≤ (n : ℚ) := div_le_self (by exact_mod_cast hn) hr
  have h2 : (pyRound ((n : ℚ) / r) : ℚ) ≤ (n : ℚ) + 1/2 :=
    le_trans (pyRound_le_add_half _) (by linarith)
  by_contra hc
  push_neg at hc
  have h3 : ((n + 1 : ℤ) : ℚ) ≤ (pyRound ((n : ℚ) / r) : ℚ) := by
    exact_mod_cast hc
  push_cast at h3
  linarith

theorem le_pyRound_div (n : ℤ) (r : ℚ) (hn : 0 ≤ n) (h0 : 0 < r) (hr : r ≤ 1) :
    n ≤ pyRound ((n : ℚ) / r) := by
  have h1 : (n : ℚ) ≤ (n : ℚ) / r := by
    rw [le_div_iff₀ h0]
    exact mul_le_of_le_one_right (by exact_mod_cast hn) hr
  have h2 : (n : ℚ) - 1/2 ≤ (pyRound ((n : ℚ) / r) : ℚ) :=
    le_trans (by linarith) (sub_half_le_pyRound _)
  by_contra hc
  push_neg at hc
  have h3 : (pyRound ((n : ℚ) / r) : ℚ) ≤ ((n - 1 : ℤ) : ℚ) := by
    exact_mod_cast Int.le_sub_one_of_lt hc
  push_cast at h3
  linarith

theorem lset_eq_of_lt (l : List V) (i : Nat) (x : V) (h : i < l.length) :
    lset l i x = some (l.set i x) := by
  simp [lset, h]

theorem length_of_get?_eq_some {l : List V} {i : Nat} {a : V}
    (h : l.get? i = some a) : i < l.length :=
  (List.get?_eq_some.mp h).1

/-- C3: for an Events record whose field 0 equals the int literal 2 or
the string "Break", the transform rescales both field 1 and field 2 by
round(value / r) at the same rate r; for any other record only field 1
changes. adjustEvent is the per-record body of the transform's Events
stage (adjustEvents maps it over the section). -/
theorem C3_break_event_fields (r : ℚ) (event : List V) (e1 : V) (n : ℤ)
    (h1 : event.get? 1 = some e1) (hn : pyIntV e1 = some n) :
    (∀ e0, event.get? 0 = some e0 →
      (pyEq e0 (V.i 2) = true ∨ pyEq e0 (V.s "Break") = true) →
      ∀ e2 m2, event.get? 2 = some e2 → pyIntV e2 = some m2 →
      adjustEvent r event =
        some ((event.set 1 (V.i (pyRound ((n : ℚ) / r)))).set 2
          (V.i (pyRound ((m2 : ℚ) / r)))))
    ∧ (∀ e0, event.get? 0 = some e0 →
      pyEq e0 (V.i 2) = false → pyEq e0 (V.s "Break") = false →
      adjustEvent r event = some (event.set 1 (V.i (pyRound ((n : ℚ) / r))))) := by
  have hl1 : 1 < event.length := length_of_get?_eq_some h1
  constructor
  · intro e0 h0 hbrk e2 m2 h2 hm2
    have hl2 : 2 < event.length := length_of_get?_eq_some h2
    have hl2s : 2 < (event.set 1 (V.i (pyRound ((n : ℚ) / r)))).length := by
      rwa [List.length_set]
    unfold adjustEvent
    rw [h1, Option.some_bind, hn, Option.some_bind, lset_eq_of_lt _ _ _ hl1,
      Option.some_bind, h0, Option.some_bind]
    rw [if_pos]
    · rw [h2, Option.some_bind, hm2, Option.some_bind, lset_eq_of_lt _ _ _ hl2s]
    · rcases hbrk with h | h
      · exact Or.inl h
      · exact Or.inr h
  · intro e0 h0 hb1 hb2
    unfold adjustEvent
    rw [h1, Option.some_bind, hn, Option.some_bind, lset_eq_of_lt _ _ _ hl1,
      Option.some_bind, h0, Option.some_bind]
    rw [if_neg]
    intro hcontra
    rcases hcontra with h | h
    · rw [hb1] at h
      exact Bool.false_ne_true h
    · rw [hb2] at h
      exact Bool.false_ne_true h

/-- C3 witness: a concrete break record (field 0 = "Break") at rate 1.3
has both its start and end times rescaled. -/
theorem C3_witness :
    adjustEvent (13/10) [V.s "Break", V.s "1000", V.s "2000"] =
      some [V.s "Break", V.i 769, V.i 1538] := by
  have h := (C3_break_event_fields (13/10) [V.s "Break", V.s "1000", V.s "2000"]
    (V.s "1000") 1000 (by rfl) (by decide)).1
    (V.s "Break") (by rfl) (Or.inr (by decide)) (V.s "2000") 2000 (by rfl) (by decide)
  rw [h]
  decide

/-- C8: for a TimingPoints record, field 0 becomes round(time / r);
when field 6 equals the string "1" (uninherited), field 1 is divided by
r as a float, and for any other field-6 value field 1 is unchanged.
adjustTimingPoint is the per-record body of the transform's
TimingPoints stage. -/
theorem C8_timing_point_fields (r : ℚ) (tp : List V) (t0 : V) (n : ℤ)
    (h0 : tp.get? 0 = some t0) (hn : pyIntV t0 = some n) :
    (∀ t6, tp.get? 6 = some t6 → pyEq t6 (V.s "1") = true →
      ∀ t1 x, tp.get? 1 = some t1 → pyFloatV t1 = some x →
      adjustTimingPoint r tp =
        some ((tp.set 0 (V.i (pyRound ((n : ℚ) / r)))).set 1 (V.q (x / r))))
    ∧ (∀ t6, tp.get? 6 = some t6 → pyEq t6 (V.s "1") = false →
      adjustTimingPoint r tp = some (tp.set 0 (V.i (pyRound ((n : ℚ) / r))))) := by
  have hl0 : 0 < tp.length := length_of_get?_eq_some h0
  constructor
  · intro t6 h6 hu t1 x h1 hx
    have hl1 : 1 < tp.length := length_of_get?_eq_some h1
    have hl1s : 1 < (tp.set 0 (V.i (pyRound ((n : ℚ) / r)))).length := by
      rwa [List.length_set]
    unfold adjustTimingPoint
    rw [h0, Option.some_bind, hn, Option.some_bind, lset_eq_of_lt _ _ _ hl0,
      Option.some_bind, h6, Option.some_bind]
    rw [if_pos hu]
    rw [h1, Option.some_bind, hx, Option.some_bind, lset_eq_of_lt _ _ _ hl1s]
  · intro t6 h6 hu
    unfold adjustTimingPoint
    rw [h0, Option.some_bind, hn, Option.some_bind, lset_eq_of_lt _ _ _ hl0,
      Option.some_bind, h6, Option.some_bind]
    rw [if_neg]
    intro hcontra
    rw [hu] at hcontra
    exact Bool.false_ne_true hcontra

/-- C8 witness: the spec's concrete record [1000,500.0,4,1,0,60,1,0] at
rate 1.3 gets time round(1000/1.3) = 769 and tempo 500/1.3 = 5000/13
(which is approximately 384.615). -/
theorem C8_witness :
    adjustTimingPoint (13/10)
      [V.s "1000", V.s "500.0", V.s "4", V.s "1", V.s "0", V.s "60", V.s "1", V.s "0"] =
      some [V.i 769, V.q (5000/13), V.s "4", V.s "1", V.s "0", V.s "60", V.s "1", V.s "0"] := by
  have h := (C8_timing_point_fields (13/10)
    [V.s "1000", V.s "500.0", V.s "4", V.s "1", V.s "0", V.s "60", V.s "1", V.s "0"]
    (V.s "1000") 1000 (by rfl) (by decide)).1
    (V.s "1") (by rfl) (by decide) (V.s "500.0") 500 (by rfl) (by decide)
  rw [h]
  decide

/-- C9: for a HitObjects record, field 2 becomes round(time / r); when
bit 0x08 of int(field 3) is set (spinner), field 5 is rescaled the same
way, and for a record without that bit only field 2 changes.
adjustHitObject is the per-record body of the transform's HitObjects
stage. -/
theorem C9_hit_object_fields (r : ℚ) (ho : List V) (hv : V) (n : ℤ)
    (h2 : ho.get? 2 = some hv) (hn : pyIntV hv = some n) :
    (∀ tv t, ho.get? 3 = some tv → pyIntV tv = some t → Int.land t 8 ≠ 0 →
      ∀ ev m, ho.get? 5 = some ev → pyIntV ev = some m →
      adjustHitObject r ho =
        some ((ho.set 2 (V.i (pyRound ((n : ℚ) / r)))).set 5
          (V.i (pyRound ((m : ℚ) / r)))))
    ∧ (∀ tv t, ho.get? 3 = some tv → pyIntV tv = some t → Int.land t 8 = 0 →
      adjustHitObject r ho = some (ho.set 2 (V.i (pyRound ((n : ℚ) / r))))) := by
  have hl2 : 2 < ho.length := length_of_get?_eq_some h2
  constructor
  · intro tv t h3 ht hbit ev m h5 hm
    have hl5 : 5 < ho.length := length_of_get?_eq_some h5
    have hl5s : 5 < (ho.set 2 (V.i (pyRound ((n : ℚ) / r)))).length := by
      rwa [List.length_set]
    unfold adjustHitObject
    rw [h2, Option.some_bind, hn, Option.some_bind, lset_eq_of_lt _ _ _ hl2,
      Option.some_bind, h3, Option.some_bind, ht, Option.some_bind]
    rw [if_pos hbit]
    rw [h5, Option.some_bind, hm, Option.some_bind, lset_eq_of_lt _ _ _ hl5s]
  · intro tv t h3 ht hbit
    unfold adjustHitObject
    rw [h2, Option.some_bind, hn, Option.some_bind, lset_eq_of_lt _ _ _ hl2,
      Option.some_bind, h3, Option.some_bind, ht, Option.some_bind]
    rw [if_neg]
    intro hcontra
    exact hcontra hbit

/-- C9 witness: a spinner record (type 12 has bit 0x08 set) at rate 1.3
gets both its start time (field 2) and end time (field 5) rescaled. -/
theorem C9_witness :
    adjustHitObject (13/10)
      [V.s "256", V.s "192", V.s "1000", V.s "12", V.s "0", V.s "2000", V.s "0:0:0:0:"] =
      some [V.s "256", V.s "192", V.i 769, V.s "12", V.s "0", V.i 1538, V.s "0:0:0:0:"] := by
  have h := (C9_hit_object_fields (13/10)
    [V.s "256", V.s "192", V.s "1000", V.s "12", V.s "0", V.s "2000", V.s "0:0:0:0:"]
    (V.s "1000") 1000 (by rfl) (by decide)).1
    (V.s "12") 12 (by rfl) (by decide) (by decide)
    (V.s "2000") 2000 (by rfl) (by decide)
  rw [h]
  decide

/-! ## Per-record and per-stage decomposition lemmas -/

theorem lset_eq_some_iff {l : List V} {i : Nat} {x : V} {l2 : List V} :
    lset l i x = some l2 ↔ i < l.length ∧ l2 = l.set i x := by
  simp only [lset]
  split
  · rename_i h
    simp [h, eq_comm]
  · rename_i h
    simp [h]

theorem get?_set_self_of_some {l : List V} {i : Nat} {a x : V}
    (h : l.get? i = some a) : (l.set i x).get? i = some x := by
  rw [List.get?_set, if_pos rfl, h]
  rfl

theorem adjustEvent_get1 {r : ℚ} {e e2 : List V} (h : adjustEvent r e = some e2)
    {e1 : V} {n : ℤ} (h1 : e.get? 1 = some e1) (hn : pyIntV e1 = some n) :
    e2.get? 1 = some (V.i (pyRound ((n : ℚ) / r))) := by
  unfold adjustEvent at h
  rw [h1, Option.some_bind, hn, Option.some_bind] at h
  have hl1 : 1 < e.length := length_of_get?_eq_some h1
  rw [lset_eq_of_lt _ _ _ hl1, Option.some_bind] at h
  cases he0 : e.get? 0 with
  | none => rw [he0] at h; simp at h
  | some e0 =>
    rw [he0, Option.some_bind] at h
    split at h
    · simp only [Option.bind_eq_some] at h
      obtain ⟨e2v, he2, m, hm, hl⟩ := h
      obtain ⟨hlt, rfl⟩ := lset_eq_some_iff.mp hl
      rw [List.get?_set_ne _ _ (by norm_num)]
      exact get?_set_self_of_some h1
    · cases h
      exact get?_set_self_of_some h1

theorem adjustEvent_get2_break {r : ℚ} {e e2 : List V} (h : adjustEvent r e = some e2)
    {e0 : V} (h0 : e.get? 0 = some e0)
    (hbrk : pyEq e0 (V.i 2) = true ∨ pyEq e0 (V.s "Break") = true)
    {e2v : V} {m : ℤ} (h2 : e.get? 2 = some e2v) (hm : pyIntV e2v = some m) :
    e2.get? 2 = some (V.i (pyRound ((m : ℚ) / r))) := by
  unfold adjustEvent at h
  simp only [Option.bind_eq_some] at h
  obtain ⟨e1, h1, n, hn, ne, hne, e0x, he0x, h⟩ := h
  rw [h0] at he0x
  injection he0x with he
  subst he
  rw [if_pos (by rcases hbrk with hb | hb; exact Or.inl hb; exact Or.inr hb)] at h
  simp only [Option.bind_eq_some] at h
  obtain ⟨e2x, he2x, m2, hm2, h⟩ := h
  rw [h2] at he2x
  injection he2x with he2e
  subst he2e
  rw [hm] at hm2
  injection hm2 with hm2e
  subst hm2e
  obtain ⟨hlt, rfl⟩ := lset_eq_some_iff.mp h
  obtain ⟨hlt1, rfl⟩ := lset_eq_some_iff.mp hne
  have h2set : (e.set 1 (V.i (pyRound ((n : ℚ) / r)))).get? 2 = some e2v := by
    rw [List.get?_set_ne _ _ (by norm_num)]
    exact h2
  exact get?_set_self_of_some h2set

theorem adjustTimingPoint_get0 {r : ℚ} {tp tp2 : List V}
    (h : adjustTimingPoint r tp = some tp2)
    {t0 : V} {n : ℤ} (h0 : tp.get? 0 = some t0) (hn : pyIntV t0 = some n) :
    tp2.get? 0 = some (V.i (pyRound ((n : ℚ) / r))) := by
  unfold adjustTimingPoint at h
  rw [h0, Option.some_bind, hn, Option.some_bind] at h
  have hl0 : 0 < tp.length := length_of_get?_eq_some h0
  rw [lset_eq_of_lt _ _ _ hl0, Option.some_bind] at h
  cases h6 : tp.get? 6 with
  | none => rw [h6] at h; simp at h
  | some t6 =>
    rw [h6, Option.some_bind] at h
    split at h
    · simp only [Option.bind_eq_some] at h
      obtain ⟨t1, h1, x, hx, hl⟩ := h
      obtain ⟨hlt, rfl⟩ := lset_eq_some_iff.mp hl
      rw [List.get?_set_ne _ _ (by norm_num)]
      exact get?_set_self_of_some h0
    · cases h
      exact get?_set_self_of_some h0

theorem adjustHitObject_get2 {r : ℚ} {ho ho2 : List V}
    (h : adjustHitObject r ho = some ho2)
    {hv : V} {n : ℤ} (h2 : ho.get? 2 = some hv) (hn : pyIntV hv = some n) :
    ho2.get? 2 = some (V.i (pyRound ((n : ℚ) / r))) := by
  unfold adjustHitObject at h
  rw [h2, Option.some_bind, hn, Option.some_bind] at h
  have hl2 : 2 < ho.length := length_of_get?_eq_some h2
  rw [lset_eq_of_lt _ _ _ hl2, Option.some_bind] at h
  cases h3 : ho.get? 3 with
  | none => rw [h3] at h; simp at h
  | some tv =>
    rw [h3, Option.some_bind] at h
    cases ht : pyIntV tv with
    | none => rw [ht] at h; simp at h
    | some t =>
      rw [ht, Option.some_bind] at h
      split at h
      · simp only [Option.bind_eq_some] at h
        obtain ⟨ev, he, m, hm, hl⟩ := h
        obtain ⟨hlt, rfl⟩ := lset_eq_some_iff.mp hl
        rw [List.get?_set_ne _ _ (by norm_num)]
        exact get?_set_self_of_some h2
      · cases h
        exact get?_set_self_of_some h2

theorem adjustHitObject_get5_spinner {r : ℚ} {ho ho2 : List V}
    (h : adjustHitObject r ho = some ho2)
    {tv : V} {t : ℤ} (h3 : ho.get? 3 = some tv) (ht : pyIntV tv = some t)
    (hbit : Int.land t 8 ≠ 0)
    {ev : V} {m : ℤ} (h5 : ho.get? 5 = some ev) (hm : pyIntV ev = some m) :
    ho2.get? 5 = some (V.i (pyRound ((m : ℚ) / r))) := by
  unfold adjustHitObject at h
  simp only [Option.bind_eq_some] at h
  obtain ⟨h2v, h2, n, hn, nho, hnho, tvx, htvx, tx, htx, h⟩ := h
  rw [h3] at htvx
  injection htvx with htve
  subst htve
  rw [ht] at htx
  injection htx with hte
  subst hte
  rw [if_pos hbit] at h
  simp only [Option.bind_eq_some] at h
  obtain ⟨evx, hevx, mx, hmx, h⟩ := h
  rw [h5] at hevx
  injection hevx with heve
  subst heve
  rw [hm] at hmx
  injection hmx with hme
  subst hme
  obtain ⟨hlt, rfl⟩ := lset_eq_some_iff.mp h
  obtain ⟨hlt2, rfl⟩ := lset_eq_some_iff.mp hnho
  have h5set : (ho.set 2 (V.i (pyRound ((n : ℚ) / r)))).get? 5 = some ev := by
    rw [List.get?_set_ne _ _ (by norm_num)]
    exact h5
  exact get?_set_self_of_some h5set

theorem setVersionTag_spec {d : OsuDict} {rate : ℚ} {dv : OsuDict}
    (h : setVersionTag d rate = some dv) :
    ∃ m v, dgetKV d "[Metadata]" = some m ∧ kvget m "Version" = some v ∧
      dv = dset d "[Metadata]"
        (Sect.kv (kvset m "Version" (V.s (pyStr v ++ " " ++ pyNumStr rate ++ "x")))) := by
  simp only [setVersionTag, Option.bind_eq_some, Option.map_eq_some'] at h
  obtain ⟨m, hm, v, hv, heq⟩ := h
  exact ⟨m, v, hm, hv, heq.symm⟩

theorem computeEffRate_spec {d : OsuDict} {rate r : ℚ}
    (h : computeEffRate d rate = some r) :
    ∃ m arv ar odv od, dgetKV d "[Difficulty]" = some m ∧
      kvget m "ApproachRate" = some arv ∧ pyIntV arv = some ar ∧ rate ≠ 0 ∧
      kvget m "OverallDifficulty" = some odv ∧ pyIntV odv = some od ∧
      r = effRate ar od rate := by
  simp only [computeEffRate, Option.bind_eq_some] at h
  obtain ⟨m, hm, arv, harv, ar, har, h⟩ := h
  split at h
  · simp at h
  · rename_i hz
    simp only [Option.bind_eq_some, Option.map_eq_some'] at h
    obtain ⟨odv, hodv, od, hod, heq⟩ := h
    exact ⟨m, arv, ar, odv, od, hm, harv, har, hz, hodv, hod, heq.symm⟩

theorem adjustGeneralTimes_spec {d : OsuDict} {r : ℚ} {d2 : OsuDict}
    (h : adjustGeneralTimes d r = some d2) :
    ∃ g av a pv p, dgetKV d "[General]" = some g ∧
      kvget g "AudioLeadIn" = some av ∧ pyIntV av = some a ∧
      kvget g "PreviewTime" = some pv ∧ pyIntV pv = some p ∧
      d2 = dset d "[General]"
        (Sect.kv (kvset (kvset g "AudioLeadIn" (V.i (pyRound ((a : ℚ) / r))))
          "PreviewTime" (V.i (pyRound ((p : ℚ) / r))))) := by
  simp only [adjustGeneralTimes, Option.bind_eq_some, Option.map_eq_some'] at h
  obtain ⟨g, hg, av, hav, a, ha, pv, hpv, p, hp, heq⟩ := h
  rw [kvget_kvset_ne _ _ _ _ (by decide)] at hpv
  exact ⟨g, av, a, pv, p, hg, hav, ha, hpv, hp, heq.symm⟩

theorem adjustBookmarks_spec {d : OsuDict} {r : ℚ} {d2 : OsuDict}
    (h : adjustBookmarks d r = some d2) :
    ∃ e, dgetKV d "[Editor]" = some e ∧
      ((kvget e "Bookmarks" = none ∧ d2 = d) ∨
       (∃ str ns, kvget e "Bookmarks" = some (V.s str) ∧
         (pySplitStr str ",").mapM pyIntStr = some ns ∧
         d2 = dset d "[Editor]" (Sect.kv (kvset e "Bookmarks"
           (V.s (joinSep "," (ns.map (fun (n : ℤ) => toString (pyRound ((n : ℚ) / r)))))))))) := by
  simp only [adjustBookmarks, Option.bind_eq_some] at h
  obtain ⟨e, he, h⟩ := h
  refine ⟨e, he, ?_⟩
  cases hb : kvget e "Bookmarks" with
  | none =>
    rw [hb] at h
    cases h
    exact Or.inl ⟨rfl, rfl⟩
  | some bv =>
    rw [hb] at h
    cases bv with
    | s str =>
      simp only [asString, Option.some_bind, Option.map_eq_some'] at h
      obtain ⟨ns, hns, heq⟩ := h
      exact Or.inr ⟨str, ns, rfl, hns, heq.symm⟩
    | i n => simp [asString] at h
    | q x => simp [asString] at h

theorem adjustDifficultyAR_spec {d : OsuDict} {r : ℚ} {d2 : OsuDict}
    (h : adjustDifficultyAR d r = some d2) :
    ∃ m arv ar, dgetKV d "[Difficulty]" = some m ∧
      kvget m "ApproachRate" = some arv ∧ pyIntV arv = some ar ∧
      d2 = dset d "[Difficulty]"
        (Sect.kv (kvset m "ApproachRate" (V.q (min (pyRound1 (newAR ar r)) 10)))) := by
  simp only [adjustDifficultyAR, Option.bind_eq_some, Option.map_eq_some'] at h
  obtain ⟨m, hm, arv, harv, ar, har, heq⟩ := h
  exact ⟨m, arv, ar, hm, harv, har, heq.symm⟩

theorem adjustDifficultyOD_spec {d : OsuDict} {r : ℚ} {d2 : OsuDict}
    (h : adjustDifficultyOD d r = some d2) :
    ∃ m odv od, dgetKV d "[Difficulty]" = some m ∧
      kvget m "OverallDifficulty" = some odv ∧ pyIntV odv = some od ∧
      d2 = dset d "[Difficulty]"
        (Sect.kv (kvset m "OverallDifficulty" (V.q (min (pyRound1 (newOD od r)) 10)))) := by
  simp only [adjustDifficultyOD, Option.bind_eq_some, Option.map_eq_some'] at h
  obtain ⟨m, hm, odv, hodv, od, hod, heq⟩ := h
  exact ⟨m, odv, od, hm, hodv, hod, heq.symm⟩

theorem adjustEvents_spec {d : OsuDict} {r : ℚ} {d2 : OsuDict}
    (h : adjustEvents d r = some d2) :
    ∃ evs evs2, dgetRecs d "[Events]" = some evs ∧
      evs.mapM (adjustEvent r) = some evs2 ∧
      d2 = dset d "[Events]" (Sect.recs evs2) := by
  simp only [adjustEvents, Option.bind_eq_some, Option.map_eq_some'] at h
  obtain ⟨evs, hevs, evs2, hmap, heq⟩ := h
  exact ⟨evs, evs2, hevs, hmap, heq.symm⟩

theorem adjustTimingPoints_spec {d : OsuDict} {r : ℚ} {d2 : OsuDict}
    (h : adjustTimingPoints d r = some d2) :
    ∃ tps tps2, dgetRecs d "[TimingPoints]" = some tps ∧
      tps.mapM (adjustTimingPoint r) = some tps2 ∧
      d2 = dset d "[TimingPoints]" (Sect.recs tps2) := by
  simp only [adjustTimingPoints, Option.bind_eq_some, Option.map_eq_some'] at h
  obtain ⟨tps, htps, tps2, hmap, heq⟩ := h
  exact ⟨tps, tps2, htps, hmap, heq.symm⟩

theorem adjustHitObjects_spec {d : OsuDict} {r : ℚ} {d2 : OsuDict}
    (h : adjustHitObjects d r = some d2) :
    ∃ hos hos2, dgetRecs d "[HitObjects]" = some hos ∧
      hos.mapM (adjustHitObject r) = some hos2 ∧
      d2 = dset d "[HitObjects]" (Sect.recs hos2) := by
  simp only [adjustHitObjects, Option.bind_eq_some, Option.map_eq_some'] at h
  obtain ⟨hos, hhos, hos2, hmap, heq⟩ := h
  exact ⟨hos, hos2, hhos, hmap, heq.symm⟩

theorem relinkAudio_spec {d : OsuDict} {origRate : ℚ} {d2 : OsuDict}
    (h : relinkAudio d origRate = some d2) :
    ∃ g fv f, dgetKV d "[General]" = some g ∧
      kvget g "AudioFilename" = some fv ∧ asString fv = some f ∧
      d2 = dset d "[General]" (Sect.kv (kvset g "AudioFilename"
        (V.s (pyNumStr origRate ++ "-" ++ stripAfterLastDot f ++ ".mp3")))) := by
  simp only [relinkAudio, Option.bind_eq_some, Option.map_eq_some'] at h
  obtain ⟨g, hg, fv, hfv, f, hf, heq⟩ := h
  exact ⟨g, fv, f, hg, hfv, hf, heq.symm⟩

theorem speedup_decomp {d : OsuDict} {rate : ℚ} {dOut : OsuDict}
    (hs : speedup_osu_file d rate = some dOut) :
    ∃ dv r d1 d2 d3 d4 d5 d6 d7,
      setVersionTag d rate = some dv ∧
      computeEffRate dv rate = some r ∧
      adjustGeneralTimes dv r = some d1 ∧
      adjustBookmarks d1 r = some d2 ∧
      adjustDifficultyAR d2 r = some d3 ∧
      adjustDifficultyOD d3 r = some d4 ∧
      adjustEvents d4 r = some d5 ∧
      adjustTimingPoints d5 r = some d6 ∧
      adjustHitObjects d6 r = some d7 ∧
      relinkAudio d7 rate = some dOut := by
  simp only [speedup_osu_file, speedupBody, Option.bind_eq_some] at hs
  obtain ⟨dv, hdv, r, hr, d1, h1, d2, h2, d3, h3, d4, h4, d5, h5, d6, h6, d7, h7, h8⟩ := hs
  exact ⟨dv, r, d1, d2, d3, d4, d5, d6, d7, hdv, hr, h1, h2, h3, h4, h5, h6, h7, h8⟩

theorem dgetKV_dset_ne (d : OsuDict) (key k2 : String) (s : Sect) (h : key ≠ k2) :
    dgetKV (dset d key s) k2 = dgetKV d k2 := by
  unfold dgetKV
  rw [dget_dset_ne _ _ _ _ h]

theorem dgetRecs_dset_ne (d : OsuDict) (key k2 : String) (s : Sect) (h : key ≠ k2) :
    dgetRecs (dset d key s) k2 = dgetRecs d k2 := by
  unfold dgetRecs
  rw [dget_dset_ne _ _ _ _ h]

theorem dgetKV_dset_self (d : OsuDict) (k : String) (m : List (String × V)) :
    dgetKV (dset d k (Sect.kv m)) k = some m := by
  unfold dgetKV
  rw [dget_dset_self]

theorem dgetRecs_dset_self (d : OsuDict) (k : String) (rows : List (List V)) :
    dgetRecs (dset d k (Sect.recs rows)) k = some rows := by
  unfold dgetRecs
  rw [dget_dset_self]

theorem adjustGeneralTimes_frame {d : OsuDict} {r : ℚ} {d2 : OsuDict}
    (h : adjustGeneralTimes d r = some d2) (k2 : String) (hk : k2 ≠ "[General]") :
    dget d2 k2 = dget d k2 := by
  obtain ⟨g, av, a, pv, p, hg, _, _, _, _, rfl⟩ := adjustGeneralTimes_spec h
  exact dget_dset_ne _ _ _ _ (Ne.symm hk)

theorem adjustBookmarks_frame {d : OsuDict} {r : ℚ} {d2 : OsuDict}
    (h : adjustBookmarks d r = some d2) (k2 : String) (hk : k2 ≠ "[Editor]") :
    dget d2 k2 = dget d k2 := by
  obtain ⟨e, he, hcase⟩ := adjustBookmarks_spec h
  rcases hcase with ⟨_, rfl⟩ | ⟨str, ns, _, _, rfl⟩
  · rfl
  · exact dget_dset_ne _ _ _ _ (Ne.symm hk)

theorem adjustDifficultyAR_frame {d : OsuDict} {r : ℚ} {d2 : OsuDict}
    (h : adjustDifficultyAR d r = some d2) (k2 : String) (hk : k2 ≠ "[Difficulty]") :
    dget d2 k2 = dget d k2 := by
  obtain ⟨m, arv, ar, _, _, _, rfl⟩ := adjustDifficultyAR_spec h
  exact dget_dset_ne _ _ _ _ (Ne.symm hk)

theorem adjustDifficultyOD_frame {d : OsuDict} {r : ℚ} {d2 : OsuDict}
    (h : adjustDifficultyOD d r = some d2) (k2 : String) (hk : k2 ≠ "[Difficulty]") :
    dget d2 k2 = dget d k2 := by
  obtain ⟨m, odv, od, _, _, _, rfl⟩ := adjustDifficultyOD_spec h
  exact dget_dset_ne _ _ _ _ (Ne.symm hk)

theorem adjustEvents_frame {d : OsuDict} {r : ℚ} {d2 : OsuDict}
    (h : adjustEvents d r = some d2) (k2 : String) (hk : k2 ≠ "[Events]") :
    dget d2 k2 = dget d k2 := by
  obtain ⟨evs, evs2, _, _, rfl⟩ := adjustEvents_spec h
  exact dget_dset_ne _ _ _ _ (Ne.symm hk)

theorem adjustTimingPoints_frame {d : OsuDict} {r : ℚ} {d2 : OsuDict}
    (h : adjustTimingPoints d r = some d2) (k2 : String) (hk : k2 ≠ "[TimingPoints]") :
    dget d2 k2 = dget d k2 := by
  obtain ⟨tps, tps2, _, _, rfl⟩ := adjustTimingPoints_spec h
  exact dget_dset_ne _ _ _ _ (Ne.symm hk)

theorem adjustHitObjects_frame {d : OsuDict} {r : ℚ} {d2 : OsuDict}
    (h : adjustHitObjects d r = some d2) (k2 : String) (hk : k2 ≠ "[HitObjects]") :
    dget d2 k2 = dget d k2 := by
  obtain ⟨hos, hos2, _, _, rfl⟩ := adjustHitObjects_spec h
  exact dget_dset_ne _ _ _ _ (Ne.symm hk)

theorem relinkAudio_frame {d : OsuDict} {origRate : ℚ} {d2 : OsuDict}
    (h : relinkAudio d origRate = some d2) (k2 : String) (hk : k2 ≠ "[General]") :
    dget d2 k2 = dget d k2 := by
  obtain ⟨g, fv, f, _, _, _, rfl⟩ := relinkAudio_spec h
  exact dget_dset_ne _ _ _ _ (Ne.symm hk)

theorem speedupBody_frame_metadata {d : OsuDict} {origRate r : ℚ} {d2 : OsuDict}
    (h : speedupBody d origRate r = some d2) :
    dget d2 "[Metadata]" = dget d "[Metadata]" := by
  simp only [speedupBody, Option.bind_eq_some] at h
  obtain ⟨d1, h1, db, hb, d3, h3, d4, h4, d5, h5, d6, h6, d7, h7, h8⟩ := h
  rw [relinkAudio_frame h8 _ (by decide), adjustHitObjects_frame h7 _ (by decide),
    adjustTimingPoints_frame h6 _ (by decide), adjustEvents_frame h5 _ (by decide),
    adjustDifficultyOD_frame h4 _ (by decide), adjustDifficultyAR_frame h3 _ (by decide),
    adjustBookmarks_frame hb _ (by decide), adjustGeneralTimes_frame h1 _ (by decide)]

/-- C1: for any document and requested rate > 0 whose simulated new
approach rate or overall difficulty at the requested rate exceeds 10,
the transform equals the version-tagging step followed by the whole
rescaling body run at the one-time-reduced effective rate rate/1.5,
while Metadata.Version in any produced output still carries the
originally requested rate as its " {rate}x" suffix. -/
theorem C1_compensating_reduction
    (d : OsuDict) (rate : ℚ) (mm dm : List (String × V)) (vv arv odv : V) (ar od : ℤ)
    (hm : dgetKV d "[Metadata]" = some mm) (hv : kvget mm "Version" = some vv)
    (hdiff : dgetKV d "[Difficulty]" = some dm)
    (har : kvget dm "ApproachRate" = some arv) (harI : pyIntV arv = some ar)
    (hod : kvget dm "OverallDifficulty" = some odv) (hodI : pyIntV odv = some od)
    (hrate : 0 < rate)
    (hsim : newAR ar rate > 10 ∨ newOD od rate > 10) :
    speedup_osu_file d rate =
      speedupBody (dset d "[Metadata]" (Sect.kv (kvset mm "Version"
        (V.s (pyStr vv ++ " " ++ pyNumStr rate ++ "x"))))) rate (rate / (3/2))
    ∧ ∀ dOut, speedup_osu_file d rate = some dOut →
        (dgetKV dOut "[Metadata]").bind (fun m2 => kvget m2 "Version") =
          some (V.s (pyStr vv ++ " " ++ pyNumStr rate ++ "x")) := by
  have hsv : setVersionTag d rate =
      some (dset d "[Metadata]" (Sect.kv (kvset mm "Version"
        (V.s (pyStr vv ++ " " ++ pyNumStr rate ++ "x"))))) := by
    unfold setVersionTag
    rw [hm, Option.some_bind, hv]
    rfl
  have hdiffv : dgetKV (dset d "[Metadata]" (Sect.kv (kvset mm "Version"
      (V.s (pyStr vv ++ " " ++ pyNumStr rate ++ "x"))))) "[Difficulty]" = some dm := by
    rw [dgetKV_dset_ne _ _ _ _ (by decide)]
    exact hdiff
  have hce : computeEffRate (dset d "[Metadata]" (Sect.kv (kvset mm "Version"
      (V.s (pyStr vv ++ " " ++ pyNumStr rate ++ "x"))))) rate = some (rate / (3/2)) := by
    unfold computeEffRate
    rw [hdiffv, Option.some_bind, har, Option.some_bind, harI, Option.some_bind,
      if_neg hrate.ne', hod, Option.some_bind, hodI, Option.map_some']
    unfold effRate
    rw [if_pos hsim]
  have heq : speedup_osu_file d rate =
      speedupBody (dset d "[Metadata]" (Sect.kv (kvset mm "Version"
        (V.s (pyStr vv ++ " " ++ pyNumStr rate ++ "x"))))) rate (rate / (3/2)) := by
    unfold speedup_osu_file
    rw [hsv, Option.some_bind, hce, Option.some_bind]
  refine ⟨heq, fun dOut hsOut => ?_⟩
  rw [heq] at hsOut
  have hmd : dget dOut "[Metadata]" =
      some (Sect.kv (kvset mm "Version" (V.s (pyStr vv ++ " " ++ pyNumStr rate ++ "x")))) := by
    rw [speedupBody_frame_metadata hsOut, dget_dset_self]
  unfold dgetKV
  rw [hmd]
  simp only [Option.some_bind]
  rw [kvget_kvset_self]

/-- Example document used by several concrete witnesses: ApproachRate
and OverallDifficulty 10, so that rate 2 triggers the compensating
reduction. -/
def exDocC1 : OsuDict :=
[ ("[General]", Sect.kv [("AudioFilename", V.s "audio.mp3"), ("AudioLeadIn", V.s "1000"),
    ("PreviewTime", V.s "2000")]),
  ("[Editor]", Sect.kv [("Bookmarks", V.s "100,200")]),
  ("[Metadata]", Sect.kv [("Title", V.s "Song"), ("Version", V.s "Insane")]),
  ("[Difficulty]", Sect.kv [("ApproachRate", V.s "10"), ("OverallDifficulty", V.s "10")]),
  ("[Events]", Sect.recs [[V.s "2", V.s "1000", V.s "2000"]]),
  ("[TimingPoints]", Sect.recs [[V.s "1000", V.s "500.0", V.s "4", V.s "1", V.s "0", V.s "60",
    V.s "1", V.s "0"]]),
  ("[Colours]", Sect.kv [("Combo1", V.s "255,0,0")]),
  ("[HitObjects]", Sect.recs [[V.s "256", V.s "192", V.s "1000", V.s "12", V.s "0", V.s "2000",
    V.s "0:0:0:0:"]]) ]

/-- C1 witness: ApproachRate = 10, OverallDifficulty = 10 and rate = 2
trigger the reduction; the whole transform runs at 2/1.5 and the
version label ends in "2x". -/
theorem C1_witness :
    (speedup_osu_file exDocC1 2 =
      speedupBody (dset exDocC1 "[Metadata]" (Sect.kv (kvset
        [("Title", V.s "Song"), ("Version", V.s "Insane")] "Version"
        (V.s (pyStr (V.s "Insane") ++ " " ++ pyNumStr 2 ++ "x"))))) 2 (2 / (3/2))
    ∧ ∀ dOut, speedup_osu_file exDocC1 2 = some dOut →
        (dgetKV dOut "[Metadata]").bind (fun m2 => kvget m2 "Version") =
          some (V.s (pyStr (V.s "Insane") ++ " " ++ pyNumStr 2 ++ "x")))
    ∧ pyStr (V.s "Insane") ++ " " ++ pyNumStr 2 ++ "x" = "Insane 2x" := by
  constructor
  · exact C1_compensating_reduction exDocC1 2
      [("Title", V.s "Song"), ("Version", V.s "Insane")]
      [("ApproachRate", V.s "10"), ("OverallDifficulty", V.s "10")]
      (V.s "Insane") (V.s "10") (V.s "10") 10 10
      (by decide) (by decide) (by decide) (by decide) (by decide) (by decide) (by decide)
      (by norm_num) (by decide)
  · decide

/-- Minimal example document: ApproachRate 9, OverallDifficulty 8,
empty record sections. -/
def exDocMin : OsuDict :=
[ ("[General]", Sect.kv [("AudioFilename", V.s "a.mp3"), ("AudioLeadIn", V.s "0"),
    ("PreviewTime", V.s "0")]),
  ("[Editor]", Sect.kv []),
  ("[Metadata]", Sect.kv [("Version", V.s "v")]),
  ("[Difficulty]", Sect.kv [("ApproachRate", V.s "9"), ("OverallDifficulty", V.s "8")]),
  ("[Events]", Sect.recs []),
  ("[TimingPoints]", Sect.recs []),
  ("[Colours]", Sect.kv []),
  ("[HitObjects]", Sect.recs []) ]

/-- The transform of exDocMin at rate 2 (the simulated approach rate
11.5 exceeds 10, so the effective rate is 4/3). -/
def exOutMin : OsuDict :=
[ ("[General]", Sect.kv [("AudioFilename", V.s "2-a.mp3"), ("AudioLeadIn", V.i 0),
    ("PreviewTime", V.i 0)]),
  ("[Editor]", Sect.kv []),
  ("[Metadata]", Sect.kv [("Version", V.s "v 2x")]),
  ("[Difficulty]", Sect.kv [("ApproachRate", V.q 10), ("OverallDifficulty", V.q (93/10))]),
  ("[Events]", Sect.recs []),
  ("[TimingPoints]", Sect.recs []),
  ("[Colours]", Sect.kv []),
  ("[HitObjects]", Sect.recs []) ]

/-- Example document with ApproachRate 0 and OverallDifficulty 0: at
rate 1/10 both stored difficulty values drop far below 0. -/
def exDocC2 : OsuDict :=
[ ("[General]", Sect.kv [("AudioFilename", V.s "a.mp3"), ("AudioLeadIn", V.s "1000"),
    ("PreviewTime", V.s "0")]),
  ("[Editor]", Sect.kv []),
  ("[Metadata]", Sect.kv [("Version", V.s "v")]),
  ("[Difficulty]", Sect.kv [("ApproachRate", V.s "0"), ("OverallDifficulty", V.s "0")]),
  ("[Events]", Sect.recs []),
  ("[TimingPoints]", Sect.recs []),
  ("[Colours]", Sect.kv []),
  ("[HitObjects]", Sect.recs []) ]

/-- C2 counterexample: the claim says output ApproachRate and
OverallDifficulty always lie in [0,10], but the document with
ApproachRate 0 and OverallDifficulty 0 transformed at rate 1/10 stores
ApproachRate -135 and OverallDifficulty -120, both below 0. -/
theorem C2_counterexample :
    (speedup_osu_file exDocC2 (1/10)).bind (fun dOut =>
      (dgetKV dOut "[Difficulty]").bind (fun m => kvget m "ApproachRate")) =
      some (V.q (-135))
    ∧ (speedup_osu_file exDocC2 (1/10)).bind (fun dOut =>
      (dgetKV dOut "[Difficulty]").bind (fun m => kvget m "OverallDifficulty")) =
      some (V.q (-120))
    ∧ ((-135 : ℚ) < 0 ∧ (-120 : ℚ) < 0) := by
  refine ⟨by decide, by decide, by decide⟩

/-- C2 amended: whenever the transform succeeds, the stored
ApproachRate and OverallDifficulty are rationals hard-capped above at
10 (stored as min(round(value,1),10)); there is no lower cap, and
values below 0 occur (see the counterexample). -/
theorem C2_difficulty_cap_upper (d : OsuDict) (rate : ℚ) (dOut : OsuDict)
    (hs : speedup_osu_file d rate = some dOut) :
    ∃ m2 x y, dgetKV dOut "[Difficulty]" = some m2 ∧
      kvget m2 "ApproachRate" = some (V.q x) ∧
      kvget m2 "OverallDifficulty" = some (V.q y) ∧ x ≤ 10 ∧ y ≤ 10 := by
  obtain ⟨dv, r, d1, d2, d3, d4, d5, d6, d7, hdv, hr, h1, h2, h3, h4, h5, h6, h7, h8⟩ :=
    speedup_decomp hs
  obtain ⟨m, arv, ar, hm3, harv, har, rfl⟩ := adjustDifficultyAR_spec h3
  obtain ⟨m4, odv, od, hm4, hodv, hod, rfl⟩ := adjustDifficultyOD_spec h4
  rw [dgetKV_dset_self] at hm4
  injection hm4 with hm4e
  subst hm4e
  have hfin : dget dOut "[Difficulty]" =
      some (Sect.kv (kvset (kvset m "ApproachRate" (V.q (min (pyRound1 (newAR ar r)) 10)))
        "OverallDifficulty" (V.q (min (pyRound1 (newOD od r)) 10)))) := by
    rw [relinkAudio_frame h8 _ (by decide), adjustHitObjects_frame h7 _ (by decide),
      adjustTimingPoints_frame h6 _ (by decide), adjustEvents_frame h5 _ (by decide),
      dget_dset_self]
  refine ⟨kvset (kvset m "ApproachRate" (V.q (min (pyRound1 (newAR ar r)) 10)))
      "OverallDifficulty" (V.q (min (pyRound1 (newOD od r)) 10)),
    min (pyRound1 (newAR ar r)) 10, min (pyRound1 (newOD od r)) 10,
    ?_, ?_, ?_, min_le_right _ _, min_le_right _ _⟩
  · unfold dgetKV
    rw [hfin]
  · rw [kvget_kvset_ne _ _ _ _ (by decide), kvget_kvset_self]
  · rw [kvget_kvset_self]

/-- C2 witness: the amended cap theorem applied to the concrete
transform of exDocMin at rate 2 (stored values 10 and 9.3). -/
theorem C2_witness :
    ∃ m2 x y, dgetKV exOutMin "[Difficulty]" = some m2 ∧
      kvget m2 "ApproachRate" = some (V.q x) ∧
      kvget m2 "OverallDifficulty" = some (V.q y) ∧ x ≤ 10 ∧ y ≤ 10 :=
  C2_difficulty_cap_upper exDocMin 2 exOutMin (by decide)

/-- C6 counterexample: the claim says rate <= 0 yields a typed
InvalidRate error and no output, but the transform runs to completion
at rate -1 and produces a document (there is no rate validation in the
source). -/
theorem C6_counterexample :
    speedup_osu_file exDocMin (-1) =
      some [ ("[General]", Sect.kv [("AudioFilename", V.s "-1-a.mp3"), ("AudioLeadIn", V.i 0),
          ("PreviewTime", V.i 0)]),
        ("[Editor]", Sect.kv []),
        ("[Metadata]", Sect.kv [("Version", V.s "v -1x")]),
        ("[Difficulty]", Sect.kv [("ApproachRate", V.q 10), ("OverallDifficulty", V.q 10)]),
        ("[Events]", Sect.recs []),
        ("[TimingPoints]", Sect.recs []),
        ("[Colours]", Sect.kv []),
        ("[HitObjects]", Sect.recs []) ] := by
  decide

/-- C6 amended: the transform performs no rate validation and has no
typed error values; rate 0 crashes with an untyped ZeroDivisionError
(modelled none) at the first division of the simulation pass, and any
nonzero rate, including negative ones, is accepted (see the
counterexample for rate -1). -/
theorem C6_rate_zero_crashes (d : OsuDict) (mm dm : List (String × V)) (vv arv : V) (ar : ℤ)
    (hm : dgetKV d "[Metadata]" = some mm) (hv : kvget mm "Version" = some vv)
    (hdiff : dgetKV d "[Difficulty]" = some dm)
    (har : kvget dm "ApproachRate" = some arv) (harI : pyIntV arv = some ar) :
    speedup_osu_file d 0 = none := by
  have hsv : setVersionTag d 0 =
      some (dset d "[Metadata]" (Sect.kv (kvset mm "Version"
        (V.s (pyStr vv ++ " " ++ pyNumStr 0 ++ "x"))))) := by
    unfold setVersionTag
    rw [hm, Option.some_bind, hv]
    rfl
  have hce : computeEffRate (dset d "[Metadata]" (Sect.kv (kvset mm "Version"
      (V.s (pyStr vv ++ " " ++ pyNumStr 0 ++ "x"))))) 0 = none := by
    unfold computeEffRate
    rw [dgetKV_dset_ne _ _ _ _ (by decide), hdiff, Option.some_bind, har, Option.some_bind,
      harI, Option.some_bind, if_pos rfl]
  unfold speedup_osu_file
  rw [hsv, Option.some_bind, hce]
  rfl

/-- C6 witness: the rate-0 crash at the concrete minimal document. -/
theorem C6_witness : speedup_osu_file exDocMin 0 = none :=
  C6_rate_zero_crashes exDocMin [("Version", V.s "v")]
    [("ApproachRate", V.s "9"), ("OverallDifficulty", V.s "8")]
    (V.s "v") (V.s "9") 9 (by decide) (by decide) (by decide) (by decide) (by decide)

/-! ## Line-splitting lemmas for the parser -/

theorem strMk_data (s : String) : String.mk s.data = s := by
  cases s
  rfl

theorem splitLinesL_of_no_newline {l : List Char} (h : '\n' ∉ l) :
    splitLinesL l = [l] := by
  induction l with
  | nil => rfl
  | cons c cs ih =>
    have hc : ¬ (c = '\n') := fun he => h (he ▸ List.mem_cons_self c cs)
    have hcs : '\n' ∉ cs := fun hm => h (List.mem_cons_of_mem c hm)
    rw [splitLinesL, if_neg hc, ih hcs]

theorem splitLinesL_append {l rest : List Char} (h : '\n' ∉ l) :
    splitLinesL (l ++ '\n' :: rest) = l :: splitLinesL rest := by
  induction l with
  | nil => simp [splitLinesL]
  | cons c cs ih =>
    have hc : ¬ (c = '\n') := fun he => h (he ▸ List.mem_cons_self c cs)
    have hcs : '\n' ∉ cs := fun hm => h (List.mem_cons_of_mem c hm)
    rw [List.cons_append, splitLinesL, if_neg hc, ih hcs]

theorem pyLines_append_line {pre : String} {rest : String} (h : '\n' ∉ pre.data) :
    pyLines (pre ++ "\n" ++ rest) = pre :: pyLines rest := by
  unfold pyLines
  rw [String.data_append, String.data_append]
  have : ("\n" : String).data = ['\n'] := rfl
  rw [this, List.append_assoc, List.singleton_append, splitLinesL_append h, List.map_cons,
    strMk_data]

theorem joinLines_ne_nil_data {L : List String} (hne : L ≠ []) (h : ∀ l ∈ L, '\n' ∉ l.data) :
    pyLines (joinLines L) = L := by
  induction L with
  | nil => exact absurd rfl hne
  | cons x rest ih =>
    cases rest with
    | nil =>
      unfold joinLines pyLines
      rw [splitLinesL_of_no_newline (h x (List.mem_cons_self x [])), List.map_cons,
        List.map_nil, strMk_data]
    | cons y rest2 =>
      have hx : '\n' ∉ x.data := h x (List.mem_cons_self x _)
      have hrest : ∀ l ∈ y :: rest2, '\n' ∉ l.data :=
        fun l hl => h l (List.mem_cons_of_mem x hl)
      have hjoin : joinLines (x :: y :: rest2) = x ++ "\n" ++ joinLines (y :: rest2) := rfl
      rw [hjoin, pyLines_append_line hx, ih (by simp) hrest]

/-- C5 counterexample: the claim says an unrecognized section header is
rejected with a typed UnknownSection parse error, but the parser
accepts the unknown header "[Foo]" and returns a document containing
it as an empty key-value section (the source has no typed errors and
no header check at all). -/
theorem C5_counterexample :
    convert_file_to_dict "osu file format v14\n\n[Foo]" = some [("[Foo]", Sect.kv [])] := by
  decide

/-- C5 amended: unrecognized headers are not rejected and there is no
typed error: a header outside the fixed recognized set is silently
accepted and initialized as an empty key-value section, and a data
line under such a header then crashes with an untyped AttributeError
(modelled none) rather than any typed parse error. -/
theorem C5_unknown_section_behavior :
    (∀ hdr : String, pyStrip hdr = hdr → hdr ≠ "" → pyStarts hdr "//" = false →
      Not ('\n' ∈ hdr.data) →
      hdr ≠ "[Events]" → hdr ≠ "[TimingPoints]" → hdr ≠ "[HitObjects]" →
      convert_file_to_dict ("osu file format v14\n" ++ hdr) = some [(hdr, Sect.kv [])])
    ∧ (∀ hdr line : String, pyStrip hdr = hdr → hdr ≠ "" → pyStarts hdr "//" = false →
      Not ('\n' ∈ hdr.data) → sepFor hdr = none →
      hdr ≠ "[Events]" → hdr ≠ "[TimingPoints]" → hdr ≠ "[HitObjects]" →
      pyStrip line = line → line ≠ "" → pyStarts line "//" = false →
      Not ('\n' ∈ line.data) →
      convert_file_to_dict ("osu file format v14\n" ++ hdr ++ "\n" ++ line) = none) := by
  have hfix : Not ('\n' ∈ ("osu file format v14" : String).data) := by decide
  constructor
  · intro hdr hstrip hne hcomm hnl he1 he2 he3
    have htext : ("osu file format v14\n" ++ hdr) = "osu file format v14" ++ "\n" ++ hdr := rfl
    unfold convert_file_to_dict
    rw [htext, pyLines_append_line hfix]
    unfold pyLines
    rw [splitLinesL_of_no_newline hnl, List.map_cons, List.map_nil, strMk_data]
    show (List.foldlM procLine ⟨false, "", []⟩ [hdr]).map PState.doc = some [(hdr, Sect.kv [])]
    have hstep : procLine ⟨false, "", []⟩ hdr =
        some ⟨true, hdr, [(hdr, Sect.kv [])]⟩ := by
      unfold procLine
      rw [hstrip]
      unfold procStripped
      rw [if_neg (by simp [hcomm]), if_neg hne, if_pos rfl,
        if_neg (fun hor => hor.elim (fun h => he1 h)
          (fun hor2 => hor2.elim (fun h => he2 h) (fun h => he3 h)))]
      rfl
    simp only [List.foldlM_cons, List.foldlM_nil, hstep, Option.bind_eq_bind,
      Option.some_bind, Option.map_some']
    rfl
  · intro hdr line hstrip hne hcomm hnl hsep he1 he2 he3 hstripl hnel hcomml hnll
    have htext : ("osu file format v14\n" ++ hdr ++ "\n" ++ line) =
        "osu file format v14" ++ "\n" ++ (hdr ++ "\n" ++ line) := by
      simp [String.append_assoc]
    unfold convert_file_to_dict
    rw [htext, pyLines_append_line hfix, pyLines_append_line hnl]
    unfold pyLines
    rw [splitLinesL_of_no_newline hnll, List.map_cons, List.map_nil, strMk_data]
    have hstep : procLine ⟨false, "", []⟩ hdr =
        some ⟨true, hdr, [(hdr, Sect.kv [])]⟩ := by
      unfold procLine
      rw [hstrip]
      unfold procStripped
      rw [if_neg (by simp [hcomm]), if_neg hne, if_pos rfl,
        if_neg (fun hor => hor.elim (fun h => he1 h)
          (fun hor2 => hor2.elim (fun h => he2 h) (fun h => he3 h)))]
      rfl
    have hstep2 : procLine ⟨true, hdr, [(hdr, Sect.kv [])]⟩ line = none := by
      unfold procLine
      rw [hstripl]
      unfold procStripped
      rw [if_neg (by simp [hcomml]), if_neg hnel, if_neg (by simp)]
      have hdg : dget [(hdr, Sect.kv [])] hdr = some (Sect.kv []) := by
        unfold dget
        rw [if_pos rfl]
      simp only [hsep, hdg]
    show ((List.foldlM procLine ⟨false, "", []⟩ (hdr :: [line])).map PState.doc) = none
    simp only [List.foldlM_cons, List.foldlM_nil, hstep, hstep2, Option.bind_eq_bind,
      Option.some_bind, Option.none_bind, Option.map_none']

/-- C5 witness: the concrete unknown header "[Foo]" is silently
accepted, and a data line "a,b" under it crashes untyped. -/
theorem C5_witness :
    convert_file_to_dict ("osu file format v14\n" ++ "[Foo]") = some [("[Foo]", Sect.kv [])]
    ∧ convert_file_to_dict ("osu file format v14\n" ++ "[Foo]" ++ "\n" ++ "a,b") = none :=
  ⟨C5_unknown_section_behavior.1 "[Foo]" (by decide) (by decide) (by decide) (by decide)
      (by decide) (by decide) (by decide),
   C5_unknown_section_behavior.2 "[Foo]" "a,b" (by decide) (by decide) (by decide) (by decide)
      (by decide) (by decide) (by decide) (by decide) (by decide) (by decide) (by decide)
      (by decide)⟩

/-- Document whose ApproachRate carries a fractional part, as the
transform itself may produce after one serialize/parse round trip. -/
def exDocC10 : OsuDict :=
[ ("[General]", Sect.kv [("AudioFilename", V.s "a.mp3"), ("AudioLeadIn", V.s "0"),
    ("PreviewTime", V.s "0")]),
  ("[Editor]", Sect.kv []),
  ("[Metadata]", Sect.kv [("Version", V.s "v")]),
  ("[Difficulty]", Sect.kv [("ApproachRate", V.s "9.9"), ("OverallDifficulty", V.s "8")]),
  ("[Events]", Sect.recs []),
  ("[TimingPoints]", Sect.recs []),
  ("[Colours]", Sect.kv []),
  ("[HitObjects]", Sect.recs []) ]

/-- C10: the transform parses ApproachRate and OverallDifficulty with
int(), which only accepts integer-formatted strings, so a document in
which either value is a non-integer string (e.g. "9.9") makes the
transform fail with no output; and this is reachable, because the
transform itself stores the fractional ApproachRate 9.9 for input 9 at
rate 1.3, whose serialized form "9.9" cannot be parsed back by int():
the serialized-and-reparsed output of one transform cannot be
transformed again. -/
theorem C10_int_parse_required :
    (∀ (d : OsuDict) (rate : ℚ) (mm dm : List (String × V)) (vv : V) (str : String),
      dgetKV d "[Metadata]" = some mm → kvget mm "Version" = some vv →
      dgetKV d "[Difficulty]" = some dm →
      kvget dm "ApproachRate" = some (V.s str) → pyIntStr str = none →
      speedup_osu_file d rate = none)
    ∧ (∀ (d : OsuDict) (rate : ℚ) (mm dm : List (String × V)) (vv arv : V) (ar : ℤ)
        (str : String),
      dgetKV d "[Metadata]" = some mm → kvget mm "Version" = some vv →
      dgetKV d "[Difficulty]" = some dm →
      kvget dm "ApproachRate" = some arv → pyIntV arv = some ar → rate ≠ 0 →
      kvget dm "OverallDifficulty" = some (V.s str) → pyIntStr str = none →
      speedup_osu_file d rate = none)
    ∧ pyIntStr "9.9" = none
    ∧ (speedup_osu_file exDocMin (13/10)).bind (fun dOut =>
        (dgetKV dOut "[Difficulty]").bind (fun m => kvget m "ApproachRate")) =
        some (V.q (99/10))
    ∧ (speedup_osu_file exDocMin (13/10)).bind (fun dOut =>
        (convert_dict_to_file dOut).bind (fun text =>
        (convert_file_to_dict text).bind (fun d2 =>
        speedup_osu_file d2 (13/10)))) = none := by
  refine ⟨?_, ?_, by decide, by decide, by decide⟩
  · intro d rate mm dm vv str hm hv hdiff har hbad
    have hsv : setVersionTag d rate =
        some (dset d "[Metadata]" (Sect.kv (kvset mm "Version"
          (V.s (pyStr vv ++ " " ++ pyNumStr rate ++ "x"))))) := by
      unfold setVersionTag
      rw [hm, Option.some_bind, hv]
      rfl
    have hce : computeEffRate (dset d "[Metadata]" (Sect.kv (kvset mm "Version"
        (V.s (pyStr vv ++ " " ++ pyNumStr rate ++ "x"))))) rate = none := by
      unfold computeEffRate
      rw [dgetKV_dset_ne _ _ _ _ (by decide), hdiff, Option.some_bind, har, Option.some_bind]
      show (pyIntStr str).bind _ = none
      rw [hbad]
      rfl
    unfold speedup_osu_file
    rw [hsv, Option.some_bind, hce]
    rfl
  · intro d rate mm dm vv arv ar str hm hv hdiff har harI hz hod hbad
    have hsv : setVersionTag d rate =
        some (dset d "[Metadata]" (Sect.kv (kvset mm "Version"
          (V.s (pyStr vv ++ " " ++ pyNumStr rate ++ "x"))))) := by
      unfold setVersionTag
      rw [hm, Option.some_bind, hv]
      rfl
    have hce : computeEffRate (dset d "[Metadata]" (Sect.kv (kvset mm "Version"
        (V.s (pyStr vv ++ " " ++ pyNumStr rate ++ "x"))))) rate = none := by
      unfold computeEffRate
      rw [dgetKV_dset_ne _ _ _ _ (by decide), hdiff, Option.some_bind, har, Option.some_bind,
        harI, Option.some_bind, if_neg hz, hod, Option.some_bind]
      show (pyIntStr str).map _ = none
      rw [hbad]
      rfl
    unfold speedup_osu_file
    rw [hsv, Option.some_bind, hce]
    rfl

/-- C10 witness: the concrete document with ApproachRate "9.9" makes
the transform fail at any rate, here 1.3. -/
theorem C10_witness : speedup_osu_file exDocC10 (13/10) = none :=
  C10_int_parse_required.1 exDocC10 (13/10) [("Version", V.s "v")]
    [("ApproachRate", V.s "9.9"), ("OverallDifficulty", V.s "8")] (V.s "v") "9.9"
    (by decide) (by decide) (by decide) (by decide) (by decide)

/-- Ordering relation between an input timestamp n and its rescaled
output m: compression for effective rate at least 1, dilation for
effective rate at most 1 (nonnegative timestamps). -/
def scaleOrd (r : ℚ) (n m : ℤ) : Prop :=
(1 ≤ r → 0 ≤ n → m ≤ n) ∧ (0 < r → r ≤ 1 → 0 ≤ n → n ≤ m)

theorem scaleOrd_pyRound (r : ℚ) (n : ℤ) : scaleOrd r n (pyRound ((n : ℚ) / r)) :=
  ⟨fun h1 h2 => pyRound_div_le n r h2 h1, fun h0 h1 h2 => le_pyRound_div n r h2 h0 h1⟩

theorem forall2_map_scaleOrd (r : ℚ) (ns : List ℤ) :
    List.Forall₂ (scaleOrd r) ns (ns.map (fun (n : ℤ) => pyRound ((n : ℚ) / r))) := by
  induction ns with
  | nil => exact List.Forall₂.nil
  | cons n rest ih => exact List.Forall₂.cons (scaleOrd_pyRound r n) ih

/-- Example document with ApproachRate and OverallDifficulty 10: at
requested rate 1.2 the compensating reduction drops the effective rate
to 0.8 and output timestamps grow. -/
def exDocC4 : OsuDict :=
[ ("[General]", Sect.kv [("AudioFilename", V.s "a.mp3"), ("AudioLeadIn", V.s "1000"),
    ("PreviewTime", V.s "0")]),
  ("[Editor]", Sect.kv []),
  ("[Metadata]", Sect.kv [("Version", V.s "v")]),
  ("[Difficulty]", Sect.kv [("ApproachRate", V.s "10"), ("OverallDifficulty", V.s "10")]),
  ("[Events]", Sect.recs []),
  ("[TimingPoints]", Sect.recs []),
  ("[Colours]", Sect.kv []),
  ("[HitObjects]", Sect.recs []) ]

/-- C4 counterexample: the claim says rate > 1 makes every output
timestamp at most its input, but at requested rate 1.2 > 1 the
compensating reduction (ApproachRate = OverallDifficulty = 10) makes
the effective rate 0.8, and the input AudioLeadIn 1000 becomes 1250,
which is strictly larger. -/
theorem C4_counterexample :
    (1 : ℚ) < 12/10
    ∧ (speedup_osu_file exDocC4 (12/10)).bind (fun dOut =>
        (dgetKV dOut "[General]").bind (fun g => kvget g "AudioLeadIn")) = some (V.i 1250)
    ∧ pyIntV (V.s "1000") = some 1000
    ∧ (1000 : ℤ) < 1250 := by
  refine ⟨by norm_num, by decide, by decide, by decide⟩

/-- C4 amended: monotonicity holds for the *effective* rate r (the
rate computeEffRate actually returns, i.e. after the one-time /1.5
reduction), not the requested rate: when the transform succeeds, every
timestamp field of the output equals round(input / r); it is at most
the input when r >= 1 and at least the input when 0 < r <= 1, for
nonnegative input timestamps (scaleOrd packages both directions). -/
theorem C4_effective_rate_monotonicity
    (d : OsuDict) (rate : ℚ) (dOut dv : OsuDict) (r : ℚ)
    (hs : speedup_osu_file d rate = some dOut)
    (hv : setVersionTag d rate = some dv)
    (hr : computeEffRate dv rate = some r) :
    (∀ g av n, dgetKV d "[General]" = some g → kvget g "AudioLeadIn" = some av →
      pyIntV av = some n →
      ∃ m, (dgetKV dOut "[General]").bind (fun g2 => kvget g2 "AudioLeadIn") =
        some (V.i m) ∧ scaleOrd r n m)
    ∧ (∀ g pv n, dgetKV d "[General]" = some g → kvget g "PreviewTime" = some pv →
      pyIntV pv = some n →
      ∃ m, (dgetKV dOut "[General]").bind (fun g2 => kvget g2 "PreviewTime") =
        some (V.i m) ∧ scaleOrd r n m)
    ∧ (∀ e str ns, dgetKV d "[Editor]" = some e → kvget e "Bookmarks" = some (V.s str) →
      (pySplitStr str ",").mapM pyIntStr = some ns →
      ∃ ms, (dgetKV dOut "[Editor]").bind (fun e2 => kvget e2 "Bookmarks") =
          some (V.s (joinSep "," (ms.map (fun m => toString m)))) ∧
        List.Forall₂ (scaleOrd r) ns ms)
    ∧ (∀ evs, dgetRecs d "[Events]" = some evs →
      ∃ evs2, dgetRecs dOut "[Events]" = some evs2 ∧
        List.Forall₂ (fun e e2 =>
          (∀ e1 n, e.get? 1 = some e1 → pyIntV e1 = some n →
            ∃ m, e2.get? 1 = some (V.i m) ∧ scaleOrd r n m)
          ∧ (∀ e0 ev n, e.get? 0 = some e0 →
            (pyEq e0 (V.i 2) = true ∨ pyEq e0 (V.s "Break") = true) →
            e.get? 2 = some ev → pyIntV ev = some n →
            ∃ m, e2.get? 2 = some (V.i m) ∧ scaleOrd r n m)) evs evs2)
    ∧ (∀ tps, dgetRecs d "[TimingPoints]" = some tps →
      ∃ tps2, dgetRecs dOut "[TimingPoints]" = some tps2 ∧
        List.Forall₂ (fun tp tp2 =>
          ∀ t0 n, tp.get? 0 = some t0 → pyIntV t0 = some n →
            ∃ m, tp2.get? 0 = some (V.i m) ∧ scaleOrd r n m) tps tps2)
    ∧ (∀ hos, dgetRecs d "[HitObjects]" = some hos →
      ∃ hos2, dgetRecs dOut "[HitObjects]" = some hos2 ∧
        List.Forall₂ (fun ho ho2 =>
          (∀ hv2 n, ho.get? 2 = some hv2 → pyIntV hv2 = some n →
            ∃ m, ho2.get? 2 = some (V.i m) ∧ scaleOrd r n m)
          ∧ (∀ tv t ev n, ho.get? 3 = some tv → pyIntV tv = some t → Int.land t 8 ≠ 0 →
            ho.get? 5 = some ev → pyIntV ev = some n →
            ∃ m, ho2.get? 5 = some (V.i m) ∧ scaleOrd r n m)) hos hos2) := by
  obtain ⟨dv0, r0, d1, d2, d3, d4, d5, d6, d7, hdv0, hr0, h1, h2, h3, h4, h5, h6, h7, h8⟩ :=
    speedup_decomp hs
  rw [hv] at hdv0
  injection hdv0 with hdve
  subst hdve
  rw [hr] at hr0
  injection hr0 with hre
  subst hre
  obtain ⟨mmv, vvv, hmmv, hvvv, rfl⟩ := setVersionTag_spec hv
  obtain ⟨g1, av1, a1, pv1, p1, hg1, hav1, ha1, hpv1, hp1, rfl⟩ := adjustGeneralTimes_spec h1
  rw [dgetKV_dset_ne _ _ _ _ (by decide)] at hg1
  obtain ⟨g7, fv, f, hg7, hfv, hf, rfl⟩ := relinkAudio_spec h8
  have hgen7 : dget d7 "[General]" = some (Sect.kv (kvset (kvset g1 "AudioLeadIn"
      (V.i (pyRound ((a1 : ℚ) / r)))) "PreviewTime" (V.i (pyRound ((p1 : ℚ) / r))))) := by
    rw [adjustHitObjects_frame h7 _ (by decide), adjustTimingPoints_frame h6 _ (by decide),
      adjustEvents_frame h5 _ (by decide), adjustDifficultyOD_frame h4 _ (by decide),
      adjustDifficultyAR_frame h3 _ (by decide), adjustBookmarks_frame h2 _ (by decide),
      dget_dset_self]
  have hg7e : g7 = kvset (kvset g1 "AudioLeadIn" (V.i (pyRound ((a1 : ℚ) / r))))
      "PreviewTime" (V.i (pyRound ((p1 : ℚ) / r))) := by
    unfold dgetKV at hg7
    rw [hgen7] at hg7
    injection hg7 with hg7i
    exact hg7i.symm
  subst hg7e
  have houtGen : dgetKV (dset d7 "[General]" (Sect.kv (kvset (kvset (kvset g1 "AudioLeadIn"
      (V.i (pyRound ((a1 : ℚ) / r)))) "PreviewTime" (V.i (pyRound ((p1 : ℚ) / r))))
      "AudioFilename" (V.s (pyNumStr rate ++ "-" ++ stripAfterLastDot f ++ ".mp3")))))
      "[General]" = some (kvset (kvset (kvset g1 "AudioLeadIn"
      (V.i (pyRound ((a1 : ℚ) / r)))) "PreviewTime" (V.i (pyRound ((p1 : ℚ) / r))))
      "AudioFilename" (V.s (pyNumStr rate ++ "-" ++ stripAfterLastDot f ++ ".mp3"))) :=
    dgetKV_dset_self _ _ _
  refine ⟨?_, ?_, ?_, ?_, ?_, ?_⟩
  · intro g av n hg hav hn
    rw [hg] at hg1
    injection hg1 with hge
    subst hge
    rw [hav] at hav1
    injection hav1 with have1
    subst have1
    rw [hn] at ha1
    injection ha1 with hne
    subst hne
    refine ⟨pyRound ((n : ℚ) / r), ?_, scaleOrd_pyRound r n⟩
    rw [houtGen, Option.some_bind, kvget_kvset_ne _ _ _ _ (by decide),
      kvget_kvset_ne _ _ _ _ (by decide), kvget_kvset_self]
  · intro g pv n hg hpv hn
    rw [hg] at hg1
    injection hg1 with hge
    subst hge
    rw [hpv] at hpv1
    injection hpv1 with hpve
    subst hpve
    rw [hn] at hp1
    injection hp1 with hne
    subst hne
    refine ⟨pyRound ((n : ℚ) / r), ?_, scaleOrd_pyRound r n⟩
    rw [houtGen, Option.some_bind, kvget_kvset_ne _ _ _ _ (by decide), kvget_kvset_self]
  · intro e str ns he hstr hns
    obtain ⟨e1, he1, hcase⟩ := adjustBookmarks_spec h2
    rw [dgetKV_dset_ne _ _ _ _ (by decide), dgetKV_dset_ne _ _ _ _ (by decide), he] at he1
    injection he1 with hee
    subst hee
    rcases hcase with ⟨hnone, _⟩ | ⟨str1, ns1, hstr1, hns1, rfl⟩
    · rw [hstr] at hnone
      cases hnone
    · rw [hstr] at hstr1
      injection hstr1 with hstr1v
      injection hstr1v with hstre
      subst hstre
      rw [hns] at hns1
      injection hns1 with hnse
      subst hnse
      refine ⟨ns.map (fun (n : ℤ) => pyRound ((n : ℚ) / r)), ?_, forall2_map_scaleOrd r ns⟩
      have hedOut : dget (dset d7 "[General]" (Sect.kv (kvset (kvset (kvset g1 "AudioLeadIn"
          (V.i (pyRound ((a1 : ℚ) / r)))) "PreviewTime" (V.i (pyRound ((p1 : ℚ) / r))))
          "AudioFilename" (V.s (pyNumStr rate ++ "-" ++ stripAfterLastDot f ++ ".mp3")))))
          "[Editor]" = some (Sect.kv (kvset e "Bookmarks" (V.s (joinSep ","
            (ns.map (fun (n : ℤ) => toString (pyRound ((n : ℚ) / r)))))))) := by
        rw [dget_dset_ne _ _ _ _ (by decide), adjustHitObjects_frame h7 _ (by decide),
          adjustTimingPoints_frame h6 _ (by decide), adjustEvents_frame h5 _ (by decide),
          adjustDifficultyOD_frame h4 _ (by decide), adjustDifficultyAR_frame h3 _ (by decide),
          dget_dset_self]
      unfold dgetKV
      rw [hedOut, Option.some_bind, kvget_kvset_self, List.map_map]
      rfl
  · intro evs hevs
    obtain ⟨evs0, evs2, hevs0, hmap, rfl⟩ := adjustEvents_spec h5
    have hch : dgetRecs d4 "[Events]" = dgetRecs d "[Events]" := by
      unfold dgetRecs
      rw [adjustDifficultyOD_frame h4 _ (by decide), adjustDifficultyAR_frame h3 _ (by decide),
        adjustBookmarks_frame h2 _ (by decide), dget_dset_ne _ _ _ _ (by decide),
        dget_dset_ne _ _ _ _ (by decide)]
    rw [hch, hevs] at hevs0
    injection hevs0 with hevse
    subst hevse
    refine ⟨evs2, ?_, ?_⟩
    · unfold dgetRecs
      rw [dget_dset_ne _ _ _ _ (by decide), adjustHitObjects_frame h7 _ (by decide),
        adjustTimingPoints_frame h6 _ (by decide), dget_dset_self]
    · refine (mapM_some_forall2 (adjustEvent r) hmap).imp ?_
      intro e e2 hee2
      constructor
      · intro e1 n hg1e hn
        exact ⟨pyRound ((n : ℚ) / r), adjustEvent_get1 hee2 hg1e hn, scaleOrd_pyRound r n⟩
      · intro e0 ev n h0 hbrk h2e hn
        exact ⟨pyRound ((n : ℚ) / r), adjustEvent_get2_break hee2 h0 hbrk h2e hn,
          scaleOrd_pyRound r n⟩
  · intro tps htps
    obtain ⟨tps0, tps2, htps0, hmap, rfl⟩ := adjustTimingPoints_spec h6
    have hch : dgetRecs d5 "[TimingPoints]" = dgetRecs d "[TimingPoints]" := by
      unfold dgetRecs
      rw [adjustEvents_frame h5 _ (by decide), adjustDifficultyOD_frame h4 _ (by decide),
        adjustDifficultyAR_frame h3 _ (by decide), adjustBookmarks_frame h2 _ (by decide),
        dget_dset_ne _ _ _ _ (by decide), dget_dset_ne _ _ _ _ (by decide)]
    rw [hch, htps] at htps0
    injection htps0 with htpse
    subst htpse
    refine ⟨tps2, ?_, ?_⟩
    · unfold dgetRecs
      rw [dget_dset_ne _ _ _ _ (by decide), adjustHitObjects_frame h7 _ (by decide),
        dget_dset_self]
    · refine (mapM_some_forall2 (adjustTimingPoint r) hmap).imp ?_
      intro tp tp2 htt2 t0 n h0 hn
      exact ⟨pyRound ((n : ℚ) / r), adjustTimingPoint_get0 htt2 h0 hn, scaleOrd_pyRound r n⟩
  · intro hos hhos
    obtain ⟨hos0, hos2, hhos0, hmap, rfl⟩ := adjustHitObjects_spec h7
    have hch : dgetRecs d6 "[HitObjects]" = dgetRecs d "[HitObjects]" := by
      unfold dgetRecs
      rw [adjustTimingPoints_frame h6 _ (by decide), adjustEvents_frame h5 _ (by decide),
        adjustDifficultyOD_frame h4 _ (by decide), adjustDifficultyAR_frame h3 _ (by decide),
        adjustBookmarks_frame h2 _ (by decide), dget_dset_ne _ _ _ _ (by decide),
        dget_dset_ne _ _ _ _ (by decide)]
    rw [hch, hhos] at hhos0
    injection hhos0 with hhose
    subst hhose
    refine ⟨hos2, ?_, ?_⟩
    · unfold dgetRecs
      rw [dget_dset_ne _ _ _ _ (by decide), dget_dset_self]
    · refine (mapM_some_forall2 (adjustHitObject r) hmap).imp ?_
      intro ho ho2 hhh2
      constructor
      · intro hv2 n h2h hn
        exact ⟨pyRound ((n : ℚ) / r), adjustHitObject_get2 hhh2 h2h hn, scaleOrd_pyRound r n⟩
      · intro tv t ev n h3h ht hbit h5h hn
        exact ⟨pyRound ((n : ℚ) / r),
          adjustHitObject_get5_spinner hhh2 h3h ht hbit h5h hn, scaleOrd_pyRound r n⟩

/-- The transform of exDocC4 at requested rate 1.2 (effective 0.8). -/
def exOutC4 : OsuDict :=
[ ("[General]", Sect.kv [("AudioFilename", V.s "1.2-a.mp3"), ("AudioLeadIn", V.i 1250),
    ("PreviewTime", V.i 0)]),
  ("[Editor]", Sect.kv []),
  ("[Metadata]", Sect.kv [("Version", V.s "v 1.2x")]),
  ("[Difficulty]", Sect.kv [("ApproachRate", V.q (46/5)), ("OverallDifficulty", V.q (46/5))]),
  ("[Events]", Sect.recs []),
  ("[TimingPoints]", Sect.recs []),
  ("[Colours]", Sect.kv []),
  ("[HitObjects]", Sect.recs []) ]

/-- exDocC4 after version tagging at requested rate 1.2. -/
def exDvC4 : OsuDict :=
[ ("[General]", Sect.kv [("AudioFilename", V.s "a.mp3"), ("AudioLeadIn", V.s "1000"),
    ("PreviewTime", V.s "0")]),
  ("[Editor]", Sect.kv []),
  ("[Metadata]", Sect.kv [("Version", V.s "v 1.2x")]),
  ("[Difficulty]", Sect.kv [("ApproachRate", V.s "10"), ("OverallDifficulty", V.s "10")]),
  ("[Events]", Sect.recs []),
  ("[TimingPoints]", Sect.recs []),
  ("[Colours]", Sect.kv []),
  ("[HitObjects]", Sect.recs []) ]

/-- C4 witness: at requested rate 1.2 the effective rate of exDocC4 is
0.8, and the amended theorem yields the output AudioLeadIn together
with its scaleOrd relation (here the dilation direction applies, since
0.8 is at most 1). -/
theorem C4_witness :
    ∃ m, (dgetKV exOutC4 "[General]").bind (fun g2 => kvget g2 "AudioLeadIn") =
      some (V.i m) ∧ scaleOrd (4/5) 1000 m :=
  (C4_effective_rate_monotonicity exDocC4 (12/10) exOutC4 exDvC4 (4/5)
    (by decide) (by decide) (by decide)).1
    [("AudioFilename", V.s "a.mp3"), ("AudioLeadIn", V.s "1000"), ("PreviewTime", V.s "0")]
    (V.s "1000") 1000 (by decide) (by decide) (by decide)

/-! ## Round-trip infrastructure -/

theorem dset_dset_same (d : OsuDict) (k : String) (v w : Sect) :
    dset (dset d k v) k w = dset d k w := by
  induction d with
  | nil => simp [dset]
  | cons p rest ih =>
    obtain ⟨k1, s1⟩ := p
    by_cases h : k1 = k <;> simp [dset, h, ih]

theorem kvset_not_mem {m : List (String × V)} {k : String} (v : V)
    (h : ∀ q ∈ m, q.1 ≠ k) : kvset m k v = m ++ [(k, v)] := by
  induction m with
  | nil => rfl
  | cons p rest ih =>
    have hp : p.1 ≠ k := h p (List.mem_cons_self p rest)
    obtain ⟨k1, v1⟩ := p
    simp only [kvset, if_neg hp, List.cons_append, List.cons.injEq, true_and]
    exact ih (fun q hq => h q (List.mem_cons_of_mem _ hq))

theorem foldl_kvset_eq_append :
    ∀ (pairs acc : List (String × V)),
    (∀ p ∈ pairs, ∀ q ∈ acc, q.1 ≠ p.1) →
    pairs.Pairwise (fun p q => p.1 ≠ q.1) →
    pairs.foldl (fun a p => kvset a p.1 (V.s (pyStr p.2))) acc =
      acc ++ pairs.map (fun p => (p.1, V.s (pyStr p.2))) := by
  intro pairs
  induction pairs with
  | nil => intro acc _ _; simp
  | cons p rest ih =>
    intro acc hdisj hpw
    have hset : kvset acc p.1 (V.s (pyStr p.2)) = acc ++ [(p.1, V.s (pyStr p.2))] :=
      kvset_not_mem _ (fun q hq => hdisj p (List.mem_cons_self p rest) q hq)
    rw [List.foldl_cons, hset, ih (acc ++ [(p.1, V.s (pyStr p.2))]) ?_
      (List.pairwise_cons.mp hpw).2]
    · simp
    · intro q hq x hx
      rcases List.mem_append.mp hx with hx1 | hx2
      · exact hdisj q (List.mem_cons_of_mem p hq) x hx1
      · rcases List.mem_cons.mp hx2 with rfl | hfalse
        · exact (List.pairwise_cons.mp hpw).1 q hq
        · cases hfalse

theorem map_V_s_pyStr (l : List String) : (l.map V.s).map pyStr = l := by
  induction l with
  | nil => rfl
  | cons x rest ih => simp [pyStr, ih]

theorem procLine_blank (st : PState) : procLine st "" = some { st with inSect := false } :=
  rfl

theorem dget_nil (k : String) : dget [] k = none := rfl

/-- A serialized data line survives the parser's stripping, comment and
blank-line checks and contains no newline. -/
def cleanLine (l : String) : Prop :=
pyStrip l = l ∧ l ≠ "" ∧ pyStarts l "//" = false ∧ Not ('\n' ∈ l.data)

/-- Conditions for a key-value section to round-trip: pairwise distinct
keys, clean serialized lines, and each line splits back into exactly
its key and rendered value. -/
def kvOK (sep : String) (m : List (String × V)) : Prop :=
m.Pairwise (fun p q => p.1 ≠ q.1) ∧
∀ p ∈ m, cleanLine (kvLine sep p) ∧ pySplitStr (kvLine sep p) sep = [p.1, pyStr p.2]

/-- Conditions for a record-list section to round-trip: clean lines
that split back into the rendered fields. -/
def recsOK (rows : List (List V)) : Prop :=
∀ row ∈ rows, cleanLine (recLine row) ∧ pySplitStr (recLine row) "," = row.map pyStr

theorem procLine_kvdata {hdr sep : String} {D : OsuDict} {acc : List (String × V)}
    (p : String × V)
    (hsep : sepFor hdr = some sep)
    (hD : dget D hdr = some (Sect.kv acc))
    (hclean : cleanLine (kvLine sep p))
    (hsplit : pySplitStr (kvLine sep p) sep = [p.1, pyStr p.2]) :
    procLine ⟨true, hdr, D⟩ (kvLine sep p) =
      some ⟨true, hdr, dset D hdr (Sect.kv (kvset acc p.1 (V.s (pyStr p.2))))⟩ := by
  unfold procLine
  rw [hclean.1]
  unfold procStripped
  rw [if_neg (by simp [hclean.2.2.1]), if_neg hclean.2.1, if_neg (by simp)]
  simp only [hsep]
  unfold kvInsertLine
  rw [hsplit]
  simp only [hD]

theorem procLine_recdata {hdr : String} {D : OsuDict} {acc : List (List V)}
    (row : List V)
    (hsep : sepFor hdr = none)
    (hD : dget D hdr = some (Sect.recs acc))
    (hclean : cleanLine (recLine row))
    (hsplit : pySplitStr (recLine row) "," = row.map pyStr) :
    procLine ⟨true, hdr, D⟩ (recLine row) =
      some ⟨true, hdr, dset D hdr (Sect.recs (acc ++ [(row.map pyStr).map V.s]))⟩ := by
  unfold procLine
  rw [hclean.1]
  unfold procStripped
  rw [if_neg (by simp [hclean.2.2.1]), if_neg hclean.2.1, if_neg (by simp)]
  simp only [hsep, hD, hsplit]

theorem foldlM_kvLines {sep hdr : String} (hsep : sepFor hdr = some sep) :
    ∀ (pairs : List (String × V)) (D : OsuDict) (acc : List (String × V)),
    dget D hdr = some (Sect.kv acc) →
    (∀ p ∈ pairs, cleanLine (kvLine sep p) ∧ pySplitStr (kvLine sep p) sep = [p.1, pyStr p.2]) →
    ∃ D2, List.foldlM procLine (⟨true, hdr, D⟩ : PState) (kvLines sep pairs) =
        some ⟨true, hdr, D2⟩
      ∧ dget D2 hdr = some (Sect.kv
          (pairs.foldl (fun a p => kvset a p.1 (V.s (pyStr p.2))) acc))
      ∧ ∀ k2, k2 ≠ hdr → dget D2 k2 = dget D k2 := by
  intro pairs
  induction pairs with
  | nil =>
    intro D acc hD _
    exact ⟨D, by simp [kvLines, List.foldlM_nil], by simpa using hD, fun k2 _ => rfl⟩
  | cons p rest ih =>
    intro D acc hD hcond
    have hstep := procLine_kvdata p hsep hD (hcond p (List.mem_cons_self p rest)).1
      (hcond p (List.mem_cons_self p rest)).2
    have hD2 : dget (dset D hdr (Sect.kv (kvset acc p.1 (V.s (pyStr p.2))))) hdr =
        some (Sect.kv (kvset acc p.1 (V.s (pyStr p.2)))) := dget_dset_self _ _ _
    obtain ⟨D2, hfold, hlook, hframe⟩ := ih (dset D hdr (Sect.kv (kvset acc p.1 (V.s (pyStr p.2)))))
      (kvset acc p.1 (V.s (pyStr p.2))) hD2
      (fun q hq => hcond q (List.mem_cons_of_mem p hq))
    refine ⟨D2, ?_, hlook, ?_⟩
    · show List.foldlM procLine (⟨true, hdr, D⟩ : PState) (kvLine sep p :: kvLines sep rest) =
        some ⟨true, hdr, D2⟩
      rw [List.foldlM_cons, hstep, Option.bind_eq_bind, Option.some_bind, hfold]
    · intro k2 hk2
      rw [hframe k2 hk2, dget_dset_ne _ _ _ _ (Ne.symm hk2)]

theorem foldlM_recLines {hdr : String} (hsep : sepFor hdr = none) :
    ∀ (rows : List (List V)) (D : OsuDict) (acc : List (List V)),
    dget D hdr = some (Sect.recs acc) →
    (∀ row ∈ rows, cleanLine (recLine row) ∧ pySplitStr (recLine row) "," = row.map pyStr) →
    ∃ D2, List.foldlM procLine (⟨true, hdr, D⟩ : PState) (rows.map recLine) =
        some ⟨true, hdr, D2⟩
      ∧ dget D2 hdr = some (Sect.recs
          (acc ++ rows.map (fun row => (row.map pyStr).map V.s)))
      ∧ ∀ k2, k2 ≠ hdr → dget D2 k2 = dget D k2 := by
  intro rows
  induction rows with
  | nil =>
    intro D acc hD _
    exact ⟨D, by simp [List.foldlM_nil], by simpa using hD, fun k2 _ => rfl⟩
  | cons row rest ih =>
    intro D acc hD hcond
    have hstep := procLine_recdata row hsep hD (hcond row (List.mem_cons_self row rest)).1
      (hcond row (List.mem_cons_self row rest)).2
    have hD2 : dget (dset D hdr (Sect.recs (acc ++ [(row.map pyStr).map V.s]))) hdr =
        some (Sect.recs (acc ++ [(row.map pyStr).map V.s])) := dget_dset_self _ _ _
    obtain ⟨D2, hfold, hlook, hframe⟩ := ih
      (dset D hdr (Sect.recs (acc ++ [(row.map pyStr).map V.s])))
      (acc ++ [(row.map pyStr).map V.s]) hD2
      (fun q hq => hcond q (List.mem_cons_of_mem row hq))
    refine ⟨D2, ?_, ?_, ?_⟩
    · show List.foldlM procLine (⟨true, hdr, D⟩ : PState) (recLine row :: rest.map recLine) =
        some ⟨true, hdr, D2⟩
      rw [List.foldlM_cons, hstep, Option.bind_eq_bind, Option.some_bind, hfold]
    · rw [hlook]
      simp
    · intro k2 hk2
      rw [hframe k2 hk2, dget_dset_ne _ _ _ _ (Ne.symm hk2)]

theorem procLine_header_kv (st : PState) (hdr : String) (hb : st.inSect = false)
    (h1 : pyStrip hdr = hdr) (h2 : hdr ≠ "") (h3 : pyStarts hdr "//" = false)
    (hnr : ¬(hdr = "[Events]" ∨ hdr = "[TimingPoints]" ∨ hdr = "[HitObjects]")) :
    procLine st hdr = some ⟨true, hdr, dset st.doc hdr (Sect.kv [])⟩ := by
  unfold procLine
  rw [h1]
  unfold procStripped
  rw [if_neg (by simp [h3]), if_neg h2, if_pos hb, if_neg hnr]

theorem procLine_header_recs (st : PState) (hdr : String) (hb : st.inSect = false)
    (h1 : pyStrip hdr = hdr) (h2 : hdr ≠ "") (h3 : pyStarts hdr "//" = false)
    (hr : hdr = "[Events]" ∨ hdr = "[TimingPoints]" ∨ hdr = "[HitObjects]") :
    procLine st hdr = some ⟨true, hdr, dset st.doc hdr (Sect.recs [])⟩ := by
  unfold procLine
  rw [h1]
  unfold procStripped
  rw [if_neg (by simp [h3]), if_neg h2, if_pos hb, if_pos hr]

theorem seg_kv {sep hdr : String} (hsep : sepFor hdr = some sep)
    (h1 : pyStrip hdr = hdr) (h2 : hdr ≠ "") (h3 : pyStarts hdr "//" = false)
    (hnr : ¬(hdr = "[Events]" ∨ hdr = "[TimingPoints]" ∨ hdr = "[HitObjects]"))
    (pairs : List (String × V)) (hOK : kvOK sep pairs) (D : OsuDict) (h0 : String) :
    ∃ D2, (∀ rest, List.foldlM procLine (⟨false, h0, D⟩ : PState)
        (hdr :: (kvLines sep pairs ++ ("" :: rest))) =
        List.foldlM procLine (⟨false, hdr, D2⟩ : PState) rest)
      ∧ dget D2 hdr = some (Sect.kv (pairs.map (fun p => (p.1, V.s (pyStr p.2)))))
      ∧ ∀ k2, k2 ≠ hdr → dget D2 k2 = dget D k2 := by
  obtain ⟨D2, hfold, hlook, hframe⟩ := foldlM_kvLines hsep pairs (dset D hdr (Sect.kv []))
    [] (dget_dset_self _ _ _) hOK.2
  refine ⟨D2, ?_, ?_, ?_⟩
  · intro rest
    rw [List.foldlM_cons,
      procLine_header_kv ⟨false, h0, D⟩ hdr rfl h1 h2 h3 hnr,
      Option.bind_eq_bind, Option.some_bind, List.foldlM_append, hfold,
      Option.bind_eq_bind, Option.some_bind, List.foldlM_cons, procLine_blank,
      Option.bind_eq_bind, Option.some_bind]
  · rw [hlook, foldl_kvset_eq_append pairs [] (fun p _ q hq => absurd hq (List.not_mem_nil q))
      hOK.1, List.nil_append]
  · intro k2 hk2
    rw [hframe k2 hk2, dget_dset_ne _ _ _ _ (Ne.symm hk2)]

theorem seg_recs {hdr : String} (hsep : sepFor hdr = none)
    (h1 : pyStrip hdr = hdr) (h2 : hdr ≠ "") (h3 : pyStarts hdr "//" = false)
    (hr : hdr = "[Events]" ∨ hdr = "[TimingPoints]" ∨ hdr = "[HitObjects]")
    (rows : List (List V)) (hOK : recsOK rows) (D : OsuDict) (h0 : String) :
    ∃ D2, (∀ rest, List.foldlM procLine (⟨false, h0, D⟩ : PState)
        (hdr :: (rows.map recLine ++ ("" :: rest))) =
        List.foldlM procLine (⟨false, hdr, D2⟩ : PState) rest)
      ∧ dget D2 hdr = some (Sect.recs (rows.map (fun row => (row.map pyStr).map V.s)))
      ∧ ∀ k2, k2 ≠ hdr → dget D2 k2 = dget D k2 := by
  obtain ⟨D2, hfold, hlook, hframe⟩ := foldlM_recLines hsep rows (dset D hdr (Sect.recs []))
    [] (dget_dset_self _ _ _) hOK
  refine ⟨D2, ?_, ?_, ?_⟩
  · intro rest
    rw [List.foldlM_cons,
      procLine_header_recs ⟨false, h0, D⟩ hdr rfl h1 h2 h3 hr,
      Option.bind_eq_bind, Option.some_bind, List.foldlM_append, hfold,
      Option.bind_eq_bind, Option.some_bind, List.foldlM_cons, procLine_blank,
      Option.bind_eq_bind, Option.some_bind]
  · rw [hlook, List.nil_append]
  · intro k2 hk2
    rw [hframe k2 hk2, dget_dset_ne _ _ _ _ (Ne.symm hk2)]

theorem seg_ho (rows : List (List V)) (hOK : recsOK rows) (D : OsuDict) (h0 : String) :
    ∃ st2 : PState, List.foldlM procLine (⟨false, h0, D⟩ : PState) (hoLines rows) = some st2
      ∧ dget st2.doc "[HitObjects]" =
          some (Sect.recs (rows.map (fun row => (row.map pyStr).map V.s)))
      ∧ ∀ k2, k2 ≠ "[HitObjects]" → dget st2.doc k2 = dget D k2 := by
  cases rows with
  | nil =>
    refine ⟨⟨false, "[HitObjects]", dset D "[HitObjects]" (Sect.recs [])⟩, ?_, ?_, ?_⟩
    · show List.foldlM procLine (⟨false, h0, D⟩ : PState) ["[HitObjects]", ""] = _
      rw [List.foldlM_cons,
        procLine_header_recs ⟨false, h0, D⟩ "[HitObjects]" rfl (by decide) (by decide)
          (by decide) (by decide),
        Option.bind_eq_bind, Option.some_bind, List.foldlM_cons, procLine_blank,
        Option.bind_eq_bind, Option.some_bind, List.foldlM_nil]
      rfl
    · exact dget_dset_self _ _ _
    · intro k2 hk2
      exact dget_dset_ne _ _ _ _ (Ne.symm hk2)
  | cons r rs =>
    obtain ⟨D2, hfold, hlook, hframe⟩ := @foldlM_recLines "[HitObjects]" (by decide)
      (r :: rs) (dset D "[HitObjects]" (Sect.recs [])) [] (dget_dset_self _ _ _) hOK
    refine ⟨⟨true, "[HitObjects]", D2⟩, ?_, ?_, ?_⟩
    · show List.foldlM procLine (⟨false, h0, D⟩ : PState)
        ("[HitObjects]" :: (r :: rs).map recLine) = _
      rw [List.foldlM_cons,
        procLine_header_recs ⟨false, h0, D⟩ "[HitObjects]" rfl (by decide) (by decide)
          (by decide) (by decide),
        Option.bind_eq_bind, Option.some_bind, hfold]
    · rw [hlook, List.nil_append]
    · intro k2 hk2
      rw [hframe k2 hk2, dget_dset_ne _ _ _ _ (Ne.symm hk2)]

theorem kvLines_parsed (sep : String) (mm : List (String × V)) :
    kvLines sep (mm.map (fun p => (p.1, V.s (pyStr p.2)))) = kvLines sep mm := by
  induction mm with
  | nil => rfl
  | cons p rest ih =>
    show kvLine sep (p.1, V.s (pyStr p.2)) :: kvLines sep (rest.map _) =
      kvLine sep p :: kvLines sep rest
    rw [ih]
    rfl

theorem recLine_parsed (row : List V) : recLine ((row.map pyStr).map V.s) = recLine row := by
  unfold recLine
  rw [map_V_s_pyStr]

theorem recLines_parsed (rows : List (List V)) :
    (rows.map (fun row => (row.map pyStr).map V.s)).map recLine = rows.map recLine := by
  induction rows with
  | nil => rfl
  | cons r rest ih =>
    show recLine ((r.map pyStr).map V.s) :: _ = recLine r :: _
    rw [ih, recLine_parsed]

theorem hoLines_parsed (rows : List (List V)) :
    hoLines (rows.map (fun row => (row.map pyStr).map V.s)) = hoLines rows := by
  cases rows with
  | nil => rfl
  | cons r rest =>
    show "[HitObjects]" :: ((r :: rest).map (fun row => (row.map pyStr).map V.s)).map recLine =
      "[HitObjects]" :: (r :: rest).map recLine
    rw [recLines_parsed]

theorem kvLines_no_newline {sep : String} {mm : List (String × V)} (hOK : kvOK sep mm) :
    ∀ l ∈ kvLines sep mm, Not ('\n' ∈ l.data) := by
  intro l hl
  obtain ⟨p, hp, rfl⟩ := List.mem_map.mp hl
  exact (hOK.2 p hp).1.2.2.2

theorem recLines_no_newline {rows : List (List V)} (hOK : recsOK rows) :
    ∀ l ∈ rows.map recLine, Not ('\n' ∈ l.data) := by
  intro l hl
  obtain ⟨row, hrow, rfl⟩ := List.mem_map.mp hl
  exact (hOK row hrow).1.2.2.2

theorem hoLines_no_newline {rows : List (List V)} (hOK : recsOK rows) :
    ∀ l ∈ hoLines rows, Not ('\n' ∈ l.data) := by
  cases rows with
  | nil => decide
  | cons r rest =>
    intro l hl
    rcases List.mem_cons.mp hl with rfl | hl2
    · decide
    · exact recLines_no_newline hOK l hl2

/-- C7 counterexample document: every section is present and well
formed, but the Metadata Title value itself contains the Metadata
separator ":", so re-parsing the serialized file splits the value and
drops everything after the first colon. -/
def exDocC7 : OsuDict :=
[("[General]", Sect.kv [("AudioFilename", V.s "a.mp3")]),
 ("[Editor]", Sect.kv []),
 ("[Metadata]", Sect.kv [("Title", V.s "a:b")]),
 ("[Difficulty]", Sect.kv []),
 ("[Events]", Sect.recs []),
 ("[TimingPoints]", Sect.recs []),
 ("[Colours]", Sect.kv []),
 ("[HitObjects]", Sect.recs [])]

/-- C7 witness document: all eight sections present and empty, so the
cleanliness conditions of the amended round-trip theorem hold. -/
def exDocC7w : OsuDict :=
[("[General]", Sect.kv [("AudioFilename", V.s "a.mp3")]),
 ("[Editor]", Sect.kv []),
 ("[Metadata]", Sect.kv []),
 ("[Difficulty]", Sect.kv []),
 ("[Events]", Sect.recs []),
 ("[TimingPoints]", Sect.recs []),
 ("[Colours]", Sect.kv []),
 ("[HitObjects]", Sect.recs [[V.s "1", V.s "2"]])]

/-- C7 counterexample: the claim promises a byte-for-byte round trip
for every serializer-produced text, but serializing exDocC7 (whose
Title value "a:b" contains the Metadata separator) and re-parsing
yields a different document, so re-serialization differs from the
original text. -/
theorem C7_counterexample :
    (convert_dict_to_file exDocC7).bind (fun text =>
      (convert_file_to_dict text).bind convert_dict_to_file) ≠ convert_dict_to_file exDocC7
    ∧ convert_dict_to_file exDocC7 ≠ none := by
  decide

/-- C7 (amended): the byte-for-byte round trip serialize-parse-serialize
holds for a document whose eight sections are present with the right
shapes and whose serialized data lines are clean: strip-stable,
non-blank, non-comment, newline-free, and splitting back into exactly
the rendered fields (in particular no separator inside a key or value
and no duplicate keys). Unconditionally the round trip fails: see the
counterexample, where a value containing the separator is truncated. -/
theorem C7_serializer_roundtrip
    (d : OsuDict) (g e m diff cols : List (String × V)) (evs tps hos : List (List V))
    (hg : dgetKV d "[General]" = some g) (he : dgetKV d "[Editor]" = some e)
    (hm : dgetKV d "[Metadata]" = some m) (hdf : dgetKV d "[Difficulty]" = some diff)
    (hev : dgetRecs d "[Events]" = some evs) (htp : dgetRecs d "[TimingPoints]" = some tps)
    (hco : dgetKV d "[Colours]" = some cols) (hho : dgetRecs d "[HitObjects]" = some hos)
    (hOKg : kvOK ": " g) (hOKe : kvOK ": " e) (hOKm : kvOK ":" m) (hOKdf : kvOK ":" diff)
    (hOKco : kvOK " : " cols) (hOKev : recsOK evs) (hOKtp : recsOK tps)
    (hOKho : recsOK hos) :
    ∃ text, convert_dict_to_file d = some text ∧
      (convert_file_to_dict text).bind convert_dict_to_file = some text := by
  have hser : serializeLines d = some (
      ["osu file format v14", ""]
        ++ ("[General]" :: kvLines ": " g) ++ [""]
        ++ ("[Editor]" :: kvLines ": " e) ++ [""]
        ++ ("[Metadata]" :: kvLines ":" m) ++ [""]
        ++ ("[Difficulty]" :: kvLines ":" diff) ++ [""]
        ++ ("[Events]" :: evs.map recLine) ++ [""]
        ++ ("[TimingPoints]" :: tps.map recLine) ++ ["", ""]
        ++ ("[Colours]" :: kvLines " : " cols) ++ [""]
        ++ hoLines hos) := by
    simp only [serializeLines, hg, he, hm, hdf, hev, htp, hco, hho, Option.bind_eq_bind,
      Option.some_bind, Option.map_some']
  set L : List String :=
      ["osu file format v14", ""]
        ++ ("[General]" :: kvLines ": " g) ++ [""]
        ++ ("[Editor]" :: kvLines ": " e) ++ [""]
        ++ ("[Metadata]" :: kvLines ":" m) ++ [""]
        ++ ("[Difficulty]" :: kvLines ":" diff) ++ [""]
        ++ ("[Events]" :: evs.map recLine) ++ [""]
        ++ ("[TimingPoints]" :: tps.map recLine) ++ ["", ""]
        ++ ("[Colours]" :: kvLines " : " cols) ++ [""]
        ++ hoLines hos with hLdef
  have happ : ∀ {L1 L2 : List String}, (∀ l ∈ L1, Not ('\n' ∈ l.data)) →
      (∀ l ∈ L2, Not ('\n' ∈ l.data)) → ∀ l ∈ L1 ++ L2, Not ('\n' ∈ l.data) :=
    fun h1 h2 => List.forall_mem_append.mpr ⟨h1, h2⟩
  have pb : ∀ l ∈ ([""] : List String), Not ('\n' ∈ l.data) := by decide
  have pbb : ∀ l ∈ (["", ""] : List String), Not ('\n' ∈ l.data) := by decide
  have p1 : ∀ l ∈ (["osu file format v14", ""] : List String), Not ('\n' ∈ l.data) := by decide
  have p2 : ∀ l ∈ ("[General]" :: kvLines ": " g), Not ('\n' ∈ l.data) :=
    List.forall_mem_cons.mpr ⟨by decide, kvLines_no_newline hOKg⟩
  have p3 : ∀ l ∈ ("[Editor]" :: kvLines ": " e), Not ('\n' ∈ l.data) :=
    List.forall_mem_cons.mpr ⟨by decide, kvLines_no_newline hOKe⟩
  have p4 : ∀ l ∈ ("[Metadata]" :: kvLines ":" m), Not ('\n' ∈ l.data) :=
    List.forall_mem_cons.mpr ⟨by decide, kvLines_no_newline hOKm⟩
  have p5 : ∀ l ∈ ("[Difficulty]" :: kvLines ":" diff), Not ('\n' ∈ l.data) :=
    List.forall_mem_cons.mpr ⟨by decide, kvLines_no_newline hOKdf⟩
  have p6 : ∀ l ∈ ("[Events]" :: evs.map recLine), Not ('\n' ∈ l.data) :=
    List.forall_mem_cons.mpr ⟨by decide, recLines_no_newline hOKev⟩
  have p7 : ∀ l ∈ ("[TimingPoints]" :: tps.map recLine), Not ('\n' ∈ l.data) :=
    List.forall_mem_cons.mpr ⟨by decide, recLines_no_newline hOKtp⟩
  have p8 : ∀ l ∈ ("[Colours]" :: kvLines " : " cols), Not ('\n' ∈ l.data) :=
    List.forall_mem_cons.mpr ⟨by decide, kvLines_no_newline hOKco⟩
  have p9 : ∀ l ∈ hoLines hos, Not ('\n' ∈ l.data) := hoLines_no_newline hOKho
  have hnl : ∀ l ∈ L, Not ('\n' ∈ l.data) := by
    rw [hLdef]
    exact happ (happ (happ (happ (happ (happ (happ (happ (happ (happ (happ (happ (happ
      (happ (happ p1 p2) pb) p3) pb) p4) pb) p5) pb) p6) pb) p7) pbb) p8) pb) p9
  have hne : L ≠ [] := by
    rw [hLdef]
    intro hcon
    simp at hcon
  have hlines : pyLines (joinLines L) = L := joinLines_ne_nil_data hne hnl
  have hnorm : L =
      "osu file format v14" :: "" ::
      "[General]" :: (kvLines ": " g ++ ("" ::
      "[Editor]" :: (kvLines ": " e ++ ("" ::
      "[Metadata]" :: (kvLines ":" m ++ ("" ::
      "[Difficulty]" :: (kvLines ":" diff ++ ("" ::
      "[Events]" :: (evs.map recLine ++ ("" ::
      "[TimingPoints]" :: (tps.map recLine ++ ("" :: "" ::
      "[Colours]" :: (kvLines " : " cols ++ ("" ::
      hoLines hos)))))))))))))) := by
    rw [hLdef]
    simp only [List.cons_append, List.nil_append, List.append_assoc]
  obtain ⟨D1, hf1, hl1, hfr1⟩ := @seg_kv ": " "[General]"
    (by decide) (by decide) (by decide) (by decide) (by decide) g hOKg [] ""
  obtain ⟨D2, hf2, hl2, hfr2⟩ := @seg_kv ": " "[Editor]"
    (by decide) (by decide) (by decide) (by decide) (by decide) e hOKe D1 "[General]"
  obtain ⟨D3, hf3, hl3, hfr3⟩ := @seg_kv ":" "[Metadata]"
    (by decide) (by decide) (by decide) (by decide) (by decide) m hOKm D2 "[Editor]"
  obtain ⟨D4, hf4, hl4, hfr4⟩ := @seg_kv ":" "[Difficulty]"
    (by decide) (by decide) (by decide) (by decide) (by decide) diff hOKdf D3 "[Metadata]"
  obtain ⟨D5, hf5, hl5, hfr5⟩ := @seg_recs "[Events]"
    (by decide) (by decide) (by decide) (by decide) (by decide) evs hOKev D4 "[Difficulty]"
  obtain ⟨D6, hf6, hl6, hfr6⟩ := @seg_recs "[TimingPoints]"
    (by decide) (by decide) (by decide) (by decide) (by decide) tps hOKtp D5 "[Events]"
  obtain ⟨D7, hf7, hl7, hfr7⟩ := @seg_kv " : " "[Colours]"
    (by decide) (by decide) (by decide) (by decide) (by decide) cols hOKco D6 "[TimingPoints]"
  obtain ⟨stF, hfF, hlF, hfrF⟩ := seg_ho hos hOKho D7 "[Colours]"
  have hb0 : procLine (⟨false, "", []⟩ : PState) "" = some (⟨false, "", []⟩ : PState) := rfl
  have hbT : procLine (⟨false, "[TimingPoints]", D6⟩ : PState) "" =
      some (⟨false, "[TimingPoints]", D6⟩ : PState) := rfl
  have hfold : List.foldlM procLine (⟨false, "", []⟩ : PState) (L.drop 1) = some stF := by
    rw [hnorm]
    simp only [List.drop_one, List.tail_cons]
    rw [List.foldlM_cons, hb0, Option.bind_eq_bind, Option.some_bind,
      hf1, hf2, hf3, hf4, hf5, hf6,
      List.foldlM_cons, hbT, Option.bind_eq_bind, Option.some_bind, hf7, hfF]
  have hparse : convert_file_to_dict (joinLines L) = some stF.doc := by
    unfold convert_file_to_dict
    rw [hlines, hfold, Option.map_some']
  have hfile : convert_dict_to_file d = some (joinLines L) := by
    unfold convert_dict_to_file
    rw [hser, Option.map_some']
  refine ⟨joinLines L, hfile, ?_⟩
  rw [hparse]
  show convert_dict_to_file stF.doc = some (joinLines L)
  have hdgG := (hfrF "[General]" (by decide)).trans ((hfr7 "[General]" (by decide)).trans
    ((hfr6 "[General]" (by decide)).trans ((hfr5 "[General]" (by decide)).trans
    ((hfr4 "[General]" (by decide)).trans ((hfr3 "[General]" (by decide)).trans
    ((hfr2 "[General]" (by decide)).trans hl1))))))
  have hdgE := (hfrF "[Editor]" (by decide)).trans ((hfr7 "[Editor]" (by decide)).trans
    ((hfr6 "[Editor]" (by decide)).trans ((hfr5 "[Editor]" (by decide)).trans
    ((hfr4 "[Editor]" (by decide)).trans ((hfr3 "[Editor]" (by decide)).trans hl2)))))
  have hdgM := (hfrF "[Metadata]" (by decide)).trans ((hfr7 "[Metadata]" (by decide)).trans
    ((hfr6 "[Metadata]" (by decide)).trans ((hfr5 "[Metadata]" (by decide)).trans
    ((hfr4 "[Metadata]" (by decide)).trans hl3))))
  have hdgDf := (hfrF "[Difficulty]" (by decide)).trans ((hfr7 "[Difficulty]" (by decide)).trans
    ((hfr6 "[Difficulty]" (by decide)).trans ((hfr5 "[Difficulty]" (by decide)).trans hl4)))
  have hdgEv := (hfrF "[Events]" (by decide)).trans ((hfr7 "[Events]" (by decide)).trans
    ((hfr6 "[Events]" (by decide)).trans hl5))
  have hdgTp := (hfrF "[TimingPoints]" (by decide)).trans
    ((hfr7 "[TimingPoints]" (by decide)).trans hl6)
  have hdgCo := (hfrF "[Colours]" (by decide)).trans hl7
  rw [hLdef]
  simp only [convert_dict_to_file, serializeLines, dgetKV, dgetRecs, hdgG, hdgE, hdgM,
    hdgDf, hdgEv, hdgTp, hdgCo, hlF, Option.bind_eq_bind, Option.some_bind,
    Option.map_some', kvLines_parsed, recLines_parsed, hoLines_parsed]

/-- C7 witness: the amended round-trip theorem applied to the concrete
document exDocC7w, whose sections all satisfy the cleanliness
conditions. -/
theorem C7_witness :
    ∃ text, convert_dict_to_file exDocC7w = some text ∧
      (convert_file_to_dict text).bind convert_dict_to_file = some text :=
  C7_serializer_roundtrip exDocC7w [("AudioFilename", V.s "a.mp3")] [] [] [] [] [] []
    [[V.s "1", V.s "2"]]
    rfl rfl rfl rfl rfl rfl rfl rfl
    (by unfold kvOK cleanLine; decide)
    ⟨List.Pairwise.nil, fun p hp => absurd hp (List.not_mem_nil p)⟩
    ⟨List.Pairwise.nil, fun p hp => absurd hp (List.not_mem_nil p)⟩
    ⟨List.Pairwise.nil, fun p hp => absurd hp (List.not_mem_nil p)⟩
    ⟨List.Pairwise.nil, fun p hp => absurd hp (List.not_mem_nil p)⟩
    (fun row hr => absurd hr (List.not_mem_nil row))
    (fun row hr => absurd hr (List.not_mem_nil row))
    (by unfold recsOK cleanLine; decide)
